import Mathlib

/-!
Verification development for a record-normalization pipeline
(semantic type inference, topic linking, validation, cleaning, batch
orchestration). The definitions below are a shallow embedding of the
TypeScript sources in `src/transformation tool-1/src/lib/` (the second,
current versions where a file contains two revisions). JavaScript
machine details are modelled as follows:

* JS strings are Lean `String`/`List Char`; `charCodeAt`/`length` agree
  with code points on the BMP inputs used here.
* JS numbers are exact rationals (`JNum`; all concrete arithmetic in
  scope is exact in IEEE double, so the rational model is faithful on
  the inputs used).
* 32-bit wrap-around (`x & x` after shifts) is explicit via `toInt32`.
* Platform primitives that the repository does not implement
  (`Number(...)`, `Date.parse`, `JSON.parse`, `parseFloat`,
  `new Date(...).toISOString()`) enter as an explicit `Platform`
  record of oracles; concrete theorems instantiate them with values
  that agree with the real primitives on the strings actually queried.
* Fallible paths (exceptions caught by `processRecordSafely`) are
  modelled with `Except String`.
-/

set_option maxHeartbeats 4000000
set_option maxRecDepth 8000

/-! ## JS string and number primitives -/

/-- The JS `\s` character class restricted to the code points that occur
in this development (space, tab, newline, carriage return, vertical tab,
form feed, no-break space). -/
def jsIsWs (c : Char) : Bool :=
  c = ' ' || c = '\t' || c = '\n' || c = '\r' || c = '\x0b' || c = '\x0c' || c = ' '

def jsIsDigit (c : Char) : Bool := '0' ≤ c && c ≤ '9'

/-- The JS `\w` class: ASCII letters, digits and underscore. -/
def jsIsWordChar (c : Char) : Bool :=
  ('a' ≤ c && c ≤ 'z') || ('A' ≤ c && c ≤ 'Z') || jsIsDigit c || c = '_'

def jsTrimList (cs : List Char) : List Char :=
  ((cs.dropWhile jsIsWs).reverse.dropWhile jsIsWs).reverse

/-- JS `String.prototype.trim`. -/
def jsTrim (s : String) : String := String.mk (jsTrimList s.toList)

/-- JS `toLowerCase` (ASCII range; agrees with JS on the inputs used). -/
def jsToLower (s : String) : String := String.mk (s.toList.map Char.toLower)

/-- JS `toUpperCase` (ASCII range). -/
def jsToUpper (s : String) : String := String.mk (s.toList.map Char.toUpper)

/-- `needle` occurs as a contiguous sublist of `hay`. -/
def isInfixB (needle : List Char) : List Char → Bool
  | [] => needle.isEmpty
  | c :: t => needle.isPrefixOf (c :: t) || isInfixB needle t

/-- JS `String.prototype.includes`. -/
def jsIncludes (s sub : String) : Bool := isInfixB sub.toList s.toList

/-- JS `String.prototype.startsWith`. -/
def jsStartsWith (s pre : String) : Bool := pre.toList.isPrefixOf s.toList

def hexDigitChar (n : Nat) : Char :=
  if n < 10 then Char.ofNat ('0'.toNat + n) else Char.ofNat ('a'.toNat + (n - 10))

/-- JS `Number.prototype.toString(16)` for naturals (lowercase hex). -/
def natToHex (n : Nat) : String :=
  if _h : n < 16 then String.mk [hexDigitChar n]
  else natToHex (n / 16) ++ String.mk [hexDigitChar (n % 16)]
  decreasing_by exact Nat.div_lt_self (by omega) (by omega)

/-- JS `padStart(4, '0')`. -/
def padStart4 (s : String) : String :=
  if s.toList.length ≥ 4 then s
  else String.mk (List.replicate (4 - s.toList.length) '0' ++ s.toList)

/-- JS `substring(0, 4)`. -/
def take4 (s : String) : String := String.mk (s.toList.take 4)

/-- Wrap an integer to the signed 32-bit range, as JS `x & x` does. -/
def toInt32 (n : Int) : Int := (n + 2147483648) % 4294967296 - 2147483648

/-! ### Exact rationals

JS numbers are modelled by exact rationals. (Every concrete arithmetic
step in scope is exact in IEEE double, so this is faithful on the
inputs used.) A custom normalized-fraction type is used so that all
arithmetic reduces inside the kernel; every constructed value is
normalized, so structural equality is value equality. -/

structure JNum where
  num : Int
  den : Nat
deriving DecidableEq, Repr, Inhabited

/-- The normalized fraction `n / d` (`d ≠ 0` at every use site). -/
def mkJNum (n d : Int) : JNum :=
  if d = 0 then ⟨0, 0⟩
  else
    let s : Int := if d < 0 then -1 else 1
    let n2 := s * n
    let d2 := (s * d).toNat
    let g := Nat.gcd n2.natAbs d2
    ⟨n2 / (g : Int), d2 / g⟩

def jnOfNat (n : Nat) : JNum := ⟨(n : Int), 1⟩

def jnOfInt (n : Int) : JNum := ⟨n, 1⟩

def jn (n d : Int) : JNum := mkJNum n d

def JNum.add (a b : JNum) : JNum :=
  mkJNum (a.num * b.den + b.num * a.den) ((a.den : Int) * b.den)

def JNum.sub (a b : JNum) : JNum :=
  mkJNum (a.num * b.den - b.num * a.den) ((a.den : Int) * b.den)

def JNum.mul (a b : JNum) : JNum := mkJNum (a.num * b.num) ((a.den : Int) * b.den)

def JNum.div (a b : JNum) : JNum := mkJNum (a.num * b.den) ((a.den : Int) * b.num)

def JNum.neg (a : JNum) : JNum := ⟨-a.num, a.den⟩

def JNum.le (a b : JNum) : Prop := a.num * (b.den : Int) ≤ b.num * (a.den : Int)

def JNum.lt (a b : JNum) : Prop := a.num * (b.den : Int) < b.num * (a.den : Int)

instance : LE JNum := ⟨JNum.le⟩

instance : LT JNum := ⟨JNum.lt⟩

instance (a b : JNum) : Decidable (a ≤ b) :=
  inferInstanceAs (Decidable (a.num * (b.den : Int) ≤ b.num * (a.den : Int)))

instance (a b : JNum) : Decidable (a < b) :=
  inferInstanceAs (Decidable (a.num * (b.den : Int) < b.num * (a.den : Int)))

instance : Add JNum := ⟨JNum.add⟩

instance : Zero JNum := ⟨⟨0, 1⟩⟩

/-- JS `Math.min`. -/
def JNum.minJ (a b : JNum) : JNum := if a ≤ b then a else b

/-- JS `Math.max`. -/
def JNum.maxJ (a b : JNum) : JNum := if a ≤ b then b else a

/-- JS `Math.round`: half-up towards positive infinity,
`⌊q + 1/2⌋`. -/
def jsRound (q : JNum) : Int := (2 * q.num + (q.den : Int)).fdiv (2 * (q.den : Int))

/-! ## JS values and row objects -/

/-- A JS scalar as it flows through the tabular pipeline. -/
inductive JSValue where
  | null
  | undefv
  | bool (b : Bool)
  | num (q : JNum)
  | str (s : String)
deriving DecidableEq, Repr

/-- A JS row object: ordered key/value pairs, lookup takes the first
binding (JS objects cannot have duplicate keys; assignment is modelled
by `rowSet`). -/
abbrev Row := List (String × JSValue)

def rowGet (row : Row) (k : String) : JSValue :=
  match row.find? (fun e => e.1 == k) with
  | some e => e.2
  | none => .undefv

/-- JS property assignment: overwrite the existing binding in place or
append a new one. -/
def rowSet (row : Row) (k : String) (v : JSValue) : Row :=
  match row with
  | [] => [(k, v)]
  | e :: t => if e.1 = k then (k, v) :: t else e :: rowSet t k v

/-! ## Platform oracles -/

/-- Platform primitives external to the repository. Each field models
one JS builtin; concrete theorems instantiate them consistently with
the real builtin on every string actually queried. -/
structure Platform where
  /-- `String(n)` for a JS number. -/
  numToString : JNum → String
  /-- `Number(s)`; `none` models `NaN`. -/
  jsNumber : String → Option JNum
  /-- `Date.parse(s)` in milliseconds; `none` models `NaN`. -/
  dateParse : String → Option Int
  /-- `Date.now()` at validation time. -/
  nowMs : Int
  /-- `JSON.parse(s)` succeeds. -/
  jsonParses : String → Bool
  /-- parsed JSON object has a truthy `topic` or `Topic` key. -/
  jsonTopicKey : String → Bool
  /-- `parseFloat(String(confidence))` for metadata confidence. -/
  parseFloatOf : String → Option JNum
  /-- `new Date(v).toISOString().split('T')[0]`; `none` models an
  invalid date. -/
  jsDateISO : JSValue → Option String

/-- JS `String(v)` string coercion. -/
def jsString (p : Platform) : JSValue → String
  | .null => "null"
  | .undefv => "undefined"
  | .bool b => if b then "true" else "false"
  | .num q => p.numToString q
  | .str s => s

/-- JS `Number(v)` coercion on a raw value; `none` models `NaN`. -/
def jsNumberOf (p : Platform) : JSValue → Option JNum
  | .null => some (jnOfNat 0)
  | .undefv => none
  | .bool b => some (jnOfNat (if b then 1 else 0))
  | .num q => some q
  | .str s => p.jsNumber s

def digitsToNat (cs : List Char) : Nat :=
  cs.foldl (fun acc c => acc * 10 + (c.toNat - '0'.toNat)) 0

/-- JS `parseFloat` restricted to strings over the alphabet `[0-9.-]`
(the only strings it is applied to in `cleanData`, which strips all
other characters first). `none` models `NaN`. -/
def parseFloatRestricted (cs : List Char) : Option JNum :=
  let (neg, rest) := match cs with
    | '-' :: t => (true, t)
    | _ => (false, cs)
  let intPart := rest.takeWhile jsIsDigit
  let rest2 := rest.dropWhile jsIsDigit
  let fracPart := match rest2 with
    | '.' :: t => t.takeWhile jsIsDigit
    | _ => []
  if intPart.isEmpty && fracPart.isEmpty then none
  else
    let magnitude : JNum := mkJNum
      ((digitsToNat intPart : Int) * (10 : Int) ^ fracPart.length + digitsToNat fracPart)
      ((10 : Int) ^ fracPart.length)
    some (if neg then magnitude.neg else magnitude)

/-- The validator/cleaner email pattern
`^[^\s@]+@[^\s@]+\.[^\s@]+$` as a whole-string test. -/
def emailShapeTest (s : String) : Bool :=
  let cs := s.toList
  if cs.count '@' ≠ 1 then false
  else
    let localPart := cs.takeWhile (fun c => c ≠ '@')
    let domain := (cs.dropWhile (fun c => c ≠ '@')).drop 1
    !localPart.isEmpty && !domain.isEmpty &&
    localPart.all (fun c => !jsIsWs c) && domain.all (fun c => !jsIsWs c) &&
    ((domain.drop 1).dropLast.contains '.')

/-! ## Data model: unified records -/

inductive SourceType where
  | pdf | audio | image | api | chat | csv | log | text
deriving DecidableEq, Repr, BEq

def sourceTypeStr : SourceType → String
  | .pdf => "pdf"
  | .audio => "audio"
  | .image => "image"
  | .api => "api"
  | .chat => "chat"
  | .csv => "csv"
  | .log => "log"
  | .text => "text"

/-- The metadata keys the embedded components read. -/
structure RecordMetadata where
  file_name : Option String
  confidence : Option String
deriving DecidableEq, Repr

structure UnifiedRecord where
  id : String
  group_id : String
  topic : String
  source_type : SourceType
  content_type : String
  structured_content : String
  raw_content : Option String
  metadata : RecordMetadata
deriving DecidableEq, Repr

/-! ## Topic linker (`topic-linker.ts` / `linkRecordsByTopic`) -/

def isSoftwareContext (text : String) : Bool :=
  jsIncludes text "code" || jsIncludes text "software" ||
  jsIncludes text "programming" || jsIncludes text "function" ||
  jsIncludes text "variable"

/-- `extractCanonicalTopic` from the source: ordered keyword taxonomy
over the lowercased content. -/
def extractCanonicalTopic (content : String) (sourceType : String) : String :=
  let text := jsToLower content
  if (jsIncludes text "newton" &&
        (jsIncludes text "first" || jsIncludes text "1st" || jsIncludes text "inertia")) ||
     (jsIncludes text "law of motion" && jsIncludes text "first") then
    "Newton\x27s First Law of Motion"
  else if (jsIncludes text "newton" &&
        (jsIncludes text "second" || jsIncludes text "2nd" ||
         jsIncludes text "f=ma" || jsIncludes text "f = ma")) ||
     (jsIncludes text "law of motion" && jsIncludes text "second") then
    "Newton\x27s Second Law of Motion"
  else if (jsIncludes text "newton" &&
        (jsIncludes text "third" || jsIncludes text "3rd" || jsIncludes text "reaction")) ||
     (jsIncludes text "law of motion" && jsIncludes text "third") then
    "Newton\x27s Third Law of Motion"
  else if (jsIncludes text "physics" || jsIncludes text "force" ||
           jsIncludes text "velocity" || jsIncludes text "acceleration" ||
           jsIncludes text "gravity") && !isSoftwareContext text then
    "Classical Mechanics"
  else if jsIncludes text "photosynthe" || jsIncludes text "photo synthesis" ||
          (jsIncludes text "plant" && jsIncludes text "light" && jsIncludes text "energy") then
    "Photosynthesis"
  else if jsIncludes text "mitosis" || jsIncludes text "cell division" then
    "Cell Division (Mitosis)"
  else if jsIncludes text "database" || jsIncludes text "sql" || jsIncludes text "mongo" ||
          jsIncludes text "postgres" || jsIncludes text "dbms" then
    "Database Systems"
  else if jsIncludes text "api" || jsIncludes text "restful" || jsIncludes text "endpoint" ||
          (jsIncludes text "json" && jsIncludes text "request") then
    "API Development"
  else if jsIncludes text "react" || jsIncludes text "jsx" || jsIncludes text "hook" ||
          jsIncludes text "component" then
    "React Development"
  else if sourceType = "log" || sourceType = "api" then "System Logs"
  else if sourceType = "chat" then "Chat History"
  else "General Unclassified"

/-- One step of the rolling hash `hash = ((hash << 5) - hash) + char`
followed by the `hash & hash` 32-bit wrap. The shift result is itself
32-bit, the intermediate sum is exact in IEEE double. -/
def hashStep (h : Int) (c : Char) : Int :=
  toInt32 (toInt32 (32 * h) - h + (c.toNat : Int))

/-- `generateShortHash` from the source. -/
def generateShortHash (s : String) : String :=
  let h := s.toList.foldl hashStep 0
  take4 (padStart4 (natToHex h.natAbs))

def isLowerAlnum (c : Char) : Bool := ('a' ≤ c && c ≤ 'z') || jsIsDigit c

/-- `replace(/[^a-z0-9]+/g, '-')`: collapse each maximal run of
non-alphanumerics to a single hyphen. -/
def collapseNonAlnum : List Char → List Char
  | [] => []
  | c :: t =>
    if isLowerAlnum c then c :: collapseNonAlnum t
    else '-' :: collapseNonAlnum (t.dropWhile (fun d => !isLowerAlnum d))
  termination_by cs => cs.length
  decreasing_by
  · simp
  · simp only [List.length_cons]
    have h : ∀ (l : List Char), (l.dropWhile (fun d => !isLowerAlnum d)).length ≤ l.length := by
      intro l
      induction l with
      | nil => simp
      | cons a l ih =>
        rw [List.dropWhile_cons]
        split
        · simp only [List.length_cons]
          omega
        · simp
    have := h t
    omega

/-- The kebab-case slug: lowercase, collapse non-alphanumeric runs to
hyphens, strip the (single) leading/trailing hyphen. -/
def kebabCase (s : String) : String :=
  let c := collapseNonAlnum (jsToLower s).toList
  let c2 := match c with
    | '-' :: t => t
    | _ => c
  let c3 := if c2.getLast? = some '-' then c2.dropLast else c2
  String.mk c3

def groupIdOfTopic (topic : String) : String :=
  "topic-" ++ kebabCase topic ++ "-" ++ generateShortHash topic

/-- `pdfAnchor.structured_content || pdfAnchor.raw_content || ""`. -/
def anchorContent (r : UnifiedRecord) : String :=
  if r.structured_content = "" then r.raw_content.getD "" else r.structured_content

/-- Self-derivation fallback used when no PDF anchor exists. -/
def selfDeriveTopic (r : UnifiedRecord) : UnifiedRecord :=
  let topic := extractCanonicalTopic (anchorContent r) (sourceTypeStr r.source_type)
  { r with topic := topic, group_id := groupIdOfTopic topic }

/-- `linkRecordsByTopic`: the first `pdf` record anchors the topic and
group id of the whole batch; otherwise each record self-derives.
(The module-level `TOPIC_REGISTRY` is written but never read, so it is
omitted.) -/
def linkRecordsByTopic (records : List UnifiedRecord) : List UnifiedRecord :=
  match records.find? (fun r => r.source_type == SourceType.pdf) with
  | some a =>
    let anchorTopic := extractCanonicalTopic (anchorContent a) "pdf"
    let anchorGroupId := groupIdOfTopic anchorTopic
    if anchorTopic = "" ∨ anchorGroupId = "" then
      records.map selfDeriveTopic
    else
      records.map (fun r => { r with topic := anchorTopic, group_id := anchorGroupId })
  | none => records.map selfDeriveTopic

/-! ## Record-level rule validator (`validation-engine.ts`) -/

inductive Severity where
  | LOW | MEDIUM | HIGH | CRITICAL
deriving DecidableEq, Repr

structure ValidationError where
  code : String
  message : String
  severity : Severity
  field : Option String
  suggestion : Option String
deriving DecidableEq, Repr

structure ValidationResult where
  isValid : Bool
  errors : List ValidationError
deriving DecidableEq, Repr

/-- General rules: non-empty content (CRITICAL), topic (HIGH),
group id (HIGH). -/
def validateGeneralRules (r : UnifiedRecord) : List ValidationError :=
  (if r.structured_content = "" ∨ jsTrim r.structured_content = "" then
    [⟨"EMPTY_CONTENT", "Structured content must not be empty", .CRITICAL,
      some "structured_content", some "Ensure the source file is not empty or corrupted"⟩]
   else []) ++
  (if r.topic = "" ∨ jsTrim r.topic = "" then
    [⟨"MISSING_TOPIC", "Topic must exist", .HIGH, some "topic",
      some "Run topic linking before validation or check PDF anchor extraction"⟩]
   else []) ++
  (if r.group_id = "" ∨ jsTrim r.group_id = "" then
    [⟨"MISSING_GROUP_ID", "Group ID must exist", .HIGH, some "group_id", none⟩]
   else [])

def validateAudioRules (r : UnifiedRecord) : List ValidationError :=
  let content := jsToLower r.structured_content
  (if jsStartsWith content "this audio" ∨ jsStartsWith content "the lecture" then
    [⟨"INVALID_AUDIO_START",
      "Audio transcript starts with prohibited phrase (e.g. \"This audio\", \"The lecture\")",
      .HIGH, none, some "Check if this is a summary instead of a raw transcript"⟩]
   else []) ++
  (if jsIncludes content "summary" ∧ content.toList.length < 500 then
    [⟨"POTENTIAL_SUMMARY", "Content appears to be a summary", .HIGH, none,
      some "Use real speech-to-text"⟩]
   else []) ++
  (if jsIncludes content "# " ∨ jsIncludes content "## " then
    [⟨"MARKDOWN_DETECTED",
      "Audio transcript contains markdown headers, suggesting it might be a summary note",
      .MEDIUM, none, none⟩]
   else [])

def validatePDFRules (p : Platform) (r : UnifiedRecord) : List ValidationError :=
  (if r.source_type = .pdf ∧ r.structured_content.toList.length < 50 then
    [⟨"PDF_TEXT_TOO_SHORT", "Page text length is below minimum threshold (50 chars)",
      .HIGH, none, some "Check if page is scanned or blank"⟩]
   else []) ++
  (match r.metadata.confidence with
   | some conf =>
     if conf ≠ "" then
       match p.parseFloatOf conf with
       | some c =>
         if c < jn 7 10 then
           [⟨"LOW_OCR_CONFIDENCE", "OCR confidence is below threshold", .MEDIUM, none,
             some "Manual review recommended"⟩]
         else []
       | none => []
     else []
   | none => [])

/-- `record.raw_content || record.structured_content`. -/
def contentToCheck (r : UnifiedRecord) : String :=
  match r.raw_content with
  | some s => if s = "" then r.structured_content else s
  | none => r.structured_content

def validateAPIRules (p : Platform) (r : UnifiedRecord) : List ValidationError :=
  let c := contentToCheck r
  (if p.jsonParses c then [] else
    [⟨"INVALID_JSON", "Source content is not valid JSON", .CRITICAL,
      some "raw_content", none⟩]) ++
  (if p.jsonParses c ∧ p.jsonTopicKey c then
    [⟨"INDEPENDENT_TOPIC_DEFINED",
      "API record defines its own topic field, which is prohibited", .HIGH, none,
      some "Remove \"topic\" field from source JSON"⟩]
   else [])

def validateCSVRules (p : Platform) (r : UnifiedRecord) : List ValidationError :=
  let c := contentToCheck r
  (if p.jsonParses c then [] else
    [⟨"INVALID_CSV_JSON", "CSV raw content is not valid JSON structure", .CRITICAL,
      some "raw_content", none⟩]) ++
  (if p.jsonParses c ∧ p.jsonTopicKey c then
    [⟨"CSV_TOPIC_COLUMN",
      "CSV contains a \"topic\" column which might conflict with system topic", .MEDIUM,
      none, some "Ensure this column is not intended to override the group topic"⟩]
   else [])

def validateRecord (p : Platform) (r : UnifiedRecord) : ValidationResult :=
  let errors := validateGeneralRules r ++
    (match r.source_type with
     | .audio => validateAudioRules r
     | .pdf => validatePDFRules p r
     | .api => validateAPIRules p r
     | .csv => validateCSVRules p r
     | _ => [])
  { isValid := errors.isEmpty, errors := errors }

/-! ## Batch orchestrator (`batch-processor.ts`) -/

inductive RecStatus where
  | SUCCESS | FAILED | PARTIAL
deriving DecidableEq, Repr

structure ProcessedRecordResult where
  record : Option UnifiedRecord
  errors : Option (List ValidationError)
  status : RecStatus
deriving DecidableEq, Repr

structure FailedRecord where
  record_id : String
  source_file : String
  errors : List ValidationError
deriving DecidableEq, Repr

structure BatchSummary where
  total : Nat
  success : Nat
  failed : Nat
  warnings : Nat
deriving DecidableEq, Repr

structure BatchIngestionResult where
  successful_records : List UnifiedRecord
  failed_records : List FailedRecord
  summary : BatchSummary
deriving DecidableEq, Repr

/-- `processRecordSafely`: validation wrapped in try/catch. The
`validate` argument is the imported `validateRecord`; `Except.error`
models a thrown exception with its message. -/
def processRecordSafely (validate : UnifiedRecord → Except String ValidationResult)
    (record : UnifiedRecord) : ProcessedRecordResult :=
  match validate record with
  | .error msg =>
    { record := some record
      errors := some [⟨"ForcedException",
        if msg = "" then "Unknown error processing record" else msg, .HIGH, none, none⟩]
      status := .FAILED }
  | .ok validation =>
    if validation.isValid then
      { record := some record, errors := none, status := .SUCCESS }
    else
      let hasCritical := validation.errors.any (fun e => e.severity == .CRITICAL)
      let hasHigh := validation.errors.any (fun e => e.severity == .HIGH)
      if hasCritical ∨ hasHigh then
        { record := some record, errors := some validation.errors, status := .FAILED }
      else
        { record := some record, errors := some validation.errors, status := .SUCCESS }

/-- `r.metadata.file_name || 'unknown_file'`. -/
def fileKey (r : UnifiedRecord) : String :=
  match r.metadata.file_name with
  | some n => if n = "" then "unknown_file" else n
  | none => "unknown_file"

/-- Insert a record into its file bucket (buckets keep first-seen
order, as JS object string keys do for the non-integer-like file names
this pipeline sees). -/
def insertGroup (k : String) (r : UnifiedRecord) :
    List (String × List UnifiedRecord) → List (String × List UnifiedRecord)
  | [] => [(k, [r])]
  | (k', rs) :: t =>
    if k' = k then (k', rs ++ [r]) :: t else (k', rs) :: insertGroup k r t

/-- `recordsByFile` grouping. -/
def groupByFile (records : List UnifiedRecord) : List (String × List UnifiedRecord) :=
  records.foldl (fun acc r => insertGroup (fileKey r) r acc) []

structure BatchAcc where
  successes : List UnifiedRecord
  failures : List FailedRecord
  success : Nat
  failed : Nat
  warnings : Nat
deriving DecidableEq, Repr

def fileAbortedError : ValidationError :=
  ⟨"FILE_ABORTED", "File processing aborted due to earlier CRITICAL error",
    .CRITICAL, none, none⟩

def resultHasCritical (res : ProcessedRecordResult) : Bool :=
  match res.errors with
  | some errs => errs.any (fun e => e.severity == .CRITICAL)
  | none => false

def resultWarnings (res : ProcessedRecordResult) : Nat :=
  match res.errors with
  | some errs => (errs.filter (fun e => e.severity == .MEDIUM || e.severity == .LOW)).length
  | none => 0

/-- The per-record body of the inner file loop; the `Bool` carries the
`fileAborted` flag. -/
def processFileStep (validate : UnifiedRecord → Except String ValidationResult)
    (fileName : String) (st : BatchAcc × Bool) (r : UnifiedRecord) : BatchAcc × Bool :=
  let (acc, aborted) := st
  if aborted then
    ({ acc with
        failures := acc.failures ++ [⟨r.id, fileName, [fileAbortedError]⟩]
        failed := acc.failed + 1 }, true)
  else
    let res := processRecordSafely validate r
    if resultHasCritical res then
      ({ acc with
          failures := acc.failures ++ [⟨r.id, fileName, res.errors.getD []⟩]
          failed := acc.failed + 1 }, true)
    else if res.status = .SUCCESS then
      ({ acc with
          successes := acc.successes ++ [res.record.getD r]
          success := acc.success + 1
          warnings := acc.warnings + (if resultWarnings res > 0 then 1 else 0) }, false)
    else
      ({ acc with
          failures := acc.failures ++ [⟨r.id, fileName, res.errors.getD []⟩]
          failed := acc.failed + 1 }, false)

def processFile (validate : UnifiedRecord → Except String ValidationResult)
    (fileName : String) (rs : List UnifiedRecord) (acc : BatchAcc) : BatchAcc :=
  (rs.foldl (processFileStep validate fileName) (acc, false)).1

def emptyBatchAcc : BatchAcc := ⟨[], [], 0, 0, 0⟩

/-- `processBatch`: group by file, process each file with a per-file
abort flag, and assemble the result. -/
def processBatch (validate : UnifiedRecord → Except String ValidationResult)
    (records : List UnifiedRecord) : BatchIngestionResult :=
  let groups := groupByFile records
  let acc := groups.foldl (fun a g => processFile validate g.1 g.2 a) emptyBatchAcc
  { successful_records := acc.successes
    failed_records := acc.failures
    summary :=
      { total := records.length
        success := acc.success
        failed := acc.failed
        warnings := acc.warnings } }

/-! ## Field validator (`validator.ts` / `validateData`) -/

inductive SemanticType where
  | identifier | name | date | numeric_amount | contact_info
  | categorical | boolean_flag | free_text
deriving DecidableEq, Repr, BEq

/-- `SemanticMapping`: a JS object column → semantic type; modelled as
an ordered association list (JS object keys are unique and ordered). -/
abbrev SemanticMapping := List (String × SemanticType)

def smLookup (sm : SemanticMapping) (col : String) : Option SemanticType :=
  (sm.find? (fun e => e.1 == col)).map (fun e => e.2)

inductive IssueSeverity where
  | critical | warning | info
deriving DecidableEq, Repr, BEq

structure ValidationIssue where
  /-- 1-based row index, as displayed. -/
  row : Nat
  column : String
  value : JSValue
  message : String
  severity : IssueSeverity
  type : String
deriving DecidableEq, Repr

structure FieldResult where
  field : String
  total_values : Nat
  valid_values : Nat
  invalid_values : Nat
  missing_values : Nat
  quality_score : Int
  failed_checks : List String
  sevCritical : Nat
  sevWarning : Nat
  sevInfo : Nat
deriving DecidableEq, Repr, Inhabited

/-- Per-column working state: the field result plus the helper
collections (`uniqueSets`, `numericValues`, `categoricalValues`). -/
structure ColState where
  fr : FieldResult
  uniq : List String
  nums : List JNum
  cats : List String
deriving DecidableEq, Repr, Inhabited

structure VState where
  cols : List (String × ColState)
  issues : List ValidationIssue
  errorCount : Nat
  warningCount : Nat
deriving DecidableEq, Repr

/-- `addIssue` with its 1000-entry memory cap. -/
def addIssue (issues : List ValidationIssue) (rowIdx : Nat) (col : String) (v : JSValue)
    (msg : String) (sev : IssueSeverity) (ty : String) : List ValidationIssue :=
  if issues.length ≥ 1000 then issues
  else issues ++ [⟨rowIdx + 1, col, v, msg, sev, ty⟩]

def updateCol (cols : List (String × ColState)) (k : String) (f : ColState → ColState) :
    List (String × ColState) :=
  match cols with
  | [] => []
  | e :: t => if e.1 = k then (e.1, f e.2) :: t else e :: updateCol t k f

def colGet (cols : List (String × ColState)) (k : String) : ColState :=
  match cols.find? (fun e => e.1 == k) with
  | some e => e.2
  | none => default

/-- `value === null || value === undefined || value === ''`. -/
def isNullish (v : JSValue) : Bool :=
  v == .null || v == .undefv || v == .str ""

def dateSepChar (c : Char) : Bool := c = '-' || c = '/'

/-- `/^\d{4}[-\/]\d{2}[-\/]\d{2}$|^\d{2}[-\/]\d{2}[-\/]\d{4}$/`. -/
def dateRegexTest (s : String) : Bool :=
  match s.toList with
  | [c0, c1, c2, c3, c4, c5, c6, c7, c8, c9] =>
    (jsIsDigit c0 && jsIsDigit c1 && jsIsDigit c2 && jsIsDigit c3 && dateSepChar c4 &&
     jsIsDigit c5 && jsIsDigit c6 && dateSepChar c7 && jsIsDigit c8 && jsIsDigit c9) ||
    (jsIsDigit c0 && jsIsDigit c1 && dateSepChar c2 && jsIsDigit c3 && jsIsDigit c4 &&
     dateSepChar c5 && jsIsDigit c6 && jsIsDigit c7 && jsIsDigit c8 && jsIsDigit c9)
  | _ => false

def isControlChar (c : Char) : Bool :=
  c.toNat ≤ 8 || (14 ≤ c.toNat && c.toNat ≤ 31)

/-- JS `toFixed(2)` on the inputs used (exact halves excepted; the
resulting string is only embedded in issue messages). -/
def toFixed2 (q : JNum) : String :=
  let scaled := jsRound (q.mul (jnOfNat 100))
  let n := scaled.natAbs
  (if scaled < 0 then "-" else "") ++ toString (n / 100) ++ "." ++
    (if n % 100 < 10 then "0" else "") ++ toString (n % 100)

def bumpFr (st : VState) (col : String) (f : FieldResult → FieldResult) : VState :=
  { st with cols := updateCol st.cols col (fun cs => { cs with fr := f cs.fr }) }

def updColSt (st : VState) (col : String) (f : ColState → ColState) : VState :=
  { st with cols := updateCol st.cols col f }

def pushIssue (st : VState) (i : Nat) (col : String) (v : JSValue) (msg : String)
    (sev : IssueSeverity) (ty : String) : VState :=
  { st with issues := addIssue st.issues i col v msg sev ty }

def bumpError (st : VState) : VState := { st with errorCount := st.errorCount + 1 }

def bumpWarning (st : VState) : VState := { st with warningCount := st.warningCount + 1 }

/-- The per-(row, column) body of the value-level validation loop. -/
def checkValue (p : Platform) (ty : SemanticType) (rowIdx : Nat) (col : String)
    (value : JSValue) (st : VState) : VState :=
  let st := bumpFr st col (fun fr => { fr with total_values := fr.total_values + 1 })
  if isNullish value then
    let st := bumpFr st col (fun fr => { fr with missing_values := fr.missing_values + 1 })
    if ty = .identifier then
      let st := bumpFr st col (fun fr =>
        { fr with
            invalid_values := fr.invalid_values + 1
            sevCritical := fr.sevCritical + 1
            failed_checks := fr.failed_checks ++ ["non-null"] })
      bumpError (pushIssue st rowIdx col value "Identifier cannot be null" .critical
        "required")
    else st
  else
    let strVal := jsTrim (jsString p value)
    let step : VState × Bool :=
      match ty with
      | .identifier =>
        if (colGet st.cols col).uniq.contains strVal then
          let st := bumpFr st col (fun fr =>
            { fr with
                sevCritical := fr.sevCritical + 1
                failed_checks := fr.failed_checks ++ ["uniqueness"] })
          (bumpError (pushIssue st rowIdx col value "Duplicate identifier" .critical
            "duplicate"), false)
        else
          (updColSt st col (fun cs => { cs with uniq := cs.uniq ++ [strVal] }), true)
      | .numeric_amount =>
        match p.jsNumber strVal with
        | none =>
          let st := bumpFr st col (fun fr =>
            { fr with
                sevCritical := fr.sevCritical + 1
                failed_checks := fr.failed_checks ++ ["numeric_conversion"] })
          (bumpError (pushIssue st rowIdx col value "Invalid numeric value" .critical
            "type"), false)
        | some num =>
          let st := updColSt st col (fun cs => { cs with nums := cs.nums ++ [num] })
          if num < jnOfNat 0 then
            let st := bumpFr st col (fun fr =>
              { fr with
                  sevWarning := fr.sevWarning + 1
                  failed_checks := fr.failed_checks ++ ["non-negative"] })
            (bumpWarning (pushIssue st rowIdx col value "Negative value detected"
              .warning "range"), true)
          else (st, true)
      | .date =>
        match p.dateParse strVal with
        | none =>
          if dateRegexTest strVal then (st, true)
          else
            let st := bumpFr st col (fun fr =>
              { fr with
                  sevCritical := fr.sevCritical + 1
                  failed_checks := fr.failed_checks ++ ["date_parsing"] })
            (bumpError (pushIssue st rowIdx col value "Invalid date format" .critical
              "format"), false)
        | some t =>
          if t > p.nowMs then
            let st := bumpFr st col (fun fr =>
              { fr with
                  sevWarning := fr.sevWarning + 1
                  failed_checks := fr.failed_checks ++ ["not_future"] })
            (bumpWarning (pushIssue st rowIdx col value "Future date detected" .warning
              "range"), true)
          else (st, true)
      | .contact_info =>
        if jsIncludes strVal "@" then
          if emailShapeTest strVal then (st, true)
          else
            let st := bumpFr st col (fun fr =>
              { fr with
                  sevCritical := fr.sevCritical + 1
                  failed_checks := fr.failed_checks ++ ["email_regex"] })
            (bumpError (pushIssue st rowIdx col value "Invalid email format" .critical
              "format"), false)
        else if strVal.toList.any jsIsDigit then
          let digits := strVal.toList.filter jsIsDigit
          if digits.length < 7 ∨ digits.length > 15 then
            let st := bumpFr st col (fun fr =>
              { fr with
                  sevWarning := fr.sevWarning + 1
                  failed_checks := fr.failed_checks ++ ["phone_length"] })
            (bumpWarning (pushIssue st rowIdx col value "Suspicious phone number length"
              .warning "format"), true)
          else (st, true)
        else (st, true)
      | .boolean_flag =>
        if ["true", "false", "0", "1", "yes", "no", "y", "n"].contains (jsToLower strVal)
        then (st, true)
        else
          let st := bumpFr st col (fun fr =>
            { fr with
                sevCritical := fr.sevCritical + 1
                failed_checks := fr.failed_checks ++ ["boolean_conversion"] })
          (bumpError (pushIssue st rowIdx col value "Invalid boolean value" .critical
            "type"), false)
      | .categorical =>
        (updColSt st col (fun cs => { cs with cats := cs.cats ++ [strVal] }), true)
      | .free_text =>
        let st :=
          if strVal.toList.length > 10000 then
            let st := bumpFr st col (fun fr =>
              { fr with
                  sevWarning := fr.sevWarning + 1
                  failed_checks := fr.failed_checks ++ ["length_check"] })
            bumpWarning (pushIssue st rowIdx col value "Excessive text length" .warning
              "consistency")
          else st
        let st :=
          if strVal.toList.any isControlChar then
            let st := bumpFr st col (fun fr =>
              { fr with
                  sevWarning := fr.sevWarning + 1
                  failed_checks := fr.failed_checks ++ ["encoding"] })
            bumpWarning (pushIssue st rowIdx col value "Hidden control characters detected"
              .warning "encoding")
          else st
        (st, true)
      | .name => (st, true)
    let (st, isValid) := step
    if isValid then
      bumpFr st col (fun fr => { fr with valid_values := fr.valid_values + 1 })
    else
      bumpFr st col (fun fr => { fr with invalid_values := fr.invalid_values + 1 })

def validateRow (p : Platform) (sm : SemanticMapping) (rowIdx : Nat) (row : Row)
    (st : VState) : VState :=
  sm.foldl (fun st e => checkValue p e.2 rowIdx e.1 (rowGet row e.1) st) st

def initColState (col : String) : ColState :=
  ⟨⟨col, 0, 0, 0, 0, 100, [], 0, 0, 0⟩, [], [], []⟩

def initVState (sm : SemanticMapping) : VState :=
  ⟨sm.map (fun e => (e.1, initColState e.1)), [], 0, 0⟩

def insertAsc (x : JNum) : List JNum → List JNum
  | [] => [x]
  | y :: t => if x ≤ y then x :: y :: t else y :: insertAsc x t

/-- Ascending numeric sort; JS `sort((a, b) => a - b)` produces this
exact list because duplicate numbers are indistinguishable. -/
def sortAsc (l : List JNum) : List JNum := l.foldr insertAsc []

/-- The IQR outlier pass for one `numeric_amount` column. (The source's
second, guarded `failed_checks` push is dead code: the unconditional
push immediately before it makes the guard false.) -/
def outlierPass (p : Platform) (data : List Row) (col : String) (st : VState) : VState :=
  let values := (colGet st.cols col).nums
  if values.length < 10 then st
  else
    let sorted := sortAsc values
    let q1 := sorted.getD (values.length / 4) (jnOfNat 0)
    let q3 := sorted.getD (3 * values.length / 4) (jnOfNat 0)
    let iqr := q3.sub q1
    let lowerBound := q1.sub ((jn 3 2).mul iqr)
    let upperBound := q3.add ((jn 3 2).mul iqr)
    let outliers := data.enum.filter (fun e =>
      match jsNumberOf p (rowGet e.2 col) with
      | some v => v < lowerBound || v > upperBound
      | none => false)
    outliers.foldl (fun st e =>
      let st := bumpFr st col (fun fr =>
        { fr with
            failed_checks := fr.failed_checks ++ ["outlier_iqr"]
            sevWarning := fr.sevWarning + 1 })
      bumpWarning (pushIssue st e.1 col (rowGet e.2 col)
        ("Outlier detected (Range: " ++ toFixed2 lowerBound ++ " - " ++
          toFixed2 upperBound ++ ")") .warning "range")) st

def dedupFirstAux (seen : List String) : List String → List String
  | [] => []
  | x :: t =>
    if seen.contains x then dedupFirstAux seen t
    else x :: dedupFirstAux (x :: seen) t

/-- `Array.from(new Set(xs))`: first occurrences in order. -/
def dedupFirst (xs : List String) : List String := dedupFirstAux [] xs

/-- The score assignment of validateData phase 3 for one column. -/
def scoreCol (cs : ColState) : ColState :=
  let fr := cs.fr
  let validRatio : JNum :=
    if fr.total_values > 0 then (jnOfNat fr.valid_values).div (jnOfNat fr.total_values)
    else jnOfNat 0
  let warningRatio : JNum :=
    if fr.total_values > 0 then (jnOfNat fr.sevWarning).div (jnOfNat fr.total_values)
    else jnOfNat 0
  let score := (validRatio.mul (jnOfNat 100)).sub (warningRatio.mul (jnOfNat 50))
  { cs with fr := { fr with
      quality_score := jsRound (JNum.maxJ (jnOfNat 0) (JNum.minJ (jnOfNat 100) score))
      failed_checks := dedupFirst fr.failed_checks } }

inductive VStatus where
  | pass | warn | fail
deriving DecidableEq, Repr

structure ValidationReport where
  dataset_quality_score : Int
  total_records : Nat
  processed_records : Nat
  error_count : Nat
  warning_count : Nat
  validation_status : VStatus
  field_validation_results : List (String × FieldResult)
  issues : List ValidationIssue
deriving DecidableEq, Repr

/-- `validateData`: value-level pass, IQR outlier pass, scoring,
status; issues truncated to the first 100. -/
def validateData (p : Platform) (data : List Row) (sm : SemanticMapping) :
    ValidationReport :=
  let st1 := data.enum.foldl (fun st e => validateRow p sm e.1 e.2 st) (initVState sm)
  let st2 := (sm.filter (fun e => e.2 == SemanticType.numeric_amount)).foldl
    (fun st e => outlierPass p data e.1 st) st1
  let scored := st2.cols.map (fun e => (e.1, scoreCol e.2))
  let totalFieldScores := (scored.map (fun e => e.2.fr.quality_score)).sum
  let datasetScore : Int :=
    if sm.length > 0 then jsRound ((jnOfInt totalFieldScores).div (jnOfNat sm.length))
    else 0
  let status : VStatus :=
    if datasetScore < 60 ∨ (jnOfNat data.length).div (jnOfNat 10) < jnOfNat st2.errorCount
    then .fail
    else if datasetScore < 90 ∨ st2.warningCount > 0 then .warn
    else .pass
  { dataset_quality_score := datasetScore
    total_records := data.length
    processed_records := data.length
    error_count := st2.errorCount
    warning_count := st2.warningCount
    validation_status := status
    field_validation_results := scored.map (fun e => (e.1, e.2.fr))
    issues := st2.issues.take 100 }

/-! ## Cleaner text transforms (`cleaner.ts` regex helpers)

Each JS regex used by the free-text pipeline is modelled by a dedicated
scanner with the same leftmost-match, alternation-order and
backtracking behaviour. (The `g`-flag `lastIndex` statefulness of
`RegExp.test` across records is not modelled: the tests below are pure;
every theorem in this file evaluates them only on single-record batches
or structurally-typed records, where the two agree.) -/

def isWordOpt : Option Char → Bool
  | some c => jsIsWordChar c
  | none => false

/-- A `\b` boundary sits between two positions of different
word-classes (string ends count as non-word). -/
def boundaryDiff (a b : Option Char) : Bool := isWordOpt a != isWordOpt b

def charEqCI (ci : Bool) (a b : Char) : Bool :=
  if ci then a.toLower == b.toLower else a == b

def prefixMatchCI (ci : Bool) : List Char → List Char → Bool
  | [], _ => true
  | _ :: _, [] => false
  | a :: na, b :: hb => charEqCI ci a b && prefixMatchCI ci na hb

/-- `\bNEEDLE\b` matches at the head of `hay` (with `prev` the
character before the current position). -/
def matchWordAt (ci : Bool) (needle : List Char) (prev : Option Char)
    (hay : List Char) : Bool :=
  !needle.isEmpty && prefixMatchCI ci needle hay &&
  boundaryDiff prev needle.head? &&
  boundaryDiff needle.getLast? (hay.drop needle.length).head?

/-- Global `\bNEEDLE\b` → `repl` replacement. -/
def replaceWordAllAux (ci : Bool) (needle repl : List Char) (prev : Option Char)
    (hay : List Char) : List Char :=
  match hay with
  | [] => []
  | c :: t =>
    if matchWordAt ci needle prev (c :: t) then
      repl ++ replaceWordAllAux ci needle repl needle.getLast? (t.drop (needle.length - 1))
    else c :: replaceWordAllAux ci needle repl (some c) t
  termination_by hay.length
  decreasing_by
  · have := t.length_drop (needle.length - 1)
    simp only [List.length_cons]
    omega
  · simp

def containsWordAux (ci : Bool) (needle : List Char) (prev : Option Char) :
    List Char → Bool
  | [] => false
  | c :: t => matchWordAt ci needle prev (c :: t) || containsWordAux ci needle (some c) t

def jsWordTest (ci : Bool) (needle s : String) : Bool :=
  containsWordAux ci needle.toList none s.toList

def jsWordReplace (ci : Bool) (needle repl s : String) : String :=
  String.mk (replaceWordAllAux ci needle.toList repl.toList none s.toList)

/-- The filler-word alternation, in source order. -/
def fillerAlts : List (List Char) :=
  (["um", "uh", "er", "ah", "like", "you know", "sort of", "kind of", "i mean",
    "actually", "basically", "literally", "right", "okay", "so"]).map String.toList

def matchFillerAt (prev : Option Char) (hay : List Char) : Option Nat :=
  fillerAlts.findSome? (fun alt =>
    if matchWordAt true alt prev hay then some alt.length else none)

def fillersReplaceAux (prev : Option Char) (hay : List Char) : List Char :=
  match hay with
  | [] => []
  | c :: t =>
    match matchFillerAt prev (c :: t) with
    | some n => ' ' :: fillersReplaceAux ((c :: t).take n).getLast? (t.drop (n - 1))
    | none => c :: fillersReplaceAux (some c) t
  termination_by hay.length
  decreasing_by
  · have := t.length_drop (n - 1)
    simp only [List.length_cons]
    omega
  · simp

def fillersTestAux (prev : Option Char) : List Char → Bool
  | [] => false
  | c :: t => (matchFillerAt prev (c :: t)).isSome || fillersTestAux (some c) t

def fillersTest (s : String) : Bool := fillersTestAux none s.toList

def fillersReplace (s : String) : String := String.mk (fillersReplaceAux none s.toList)

/-- `\d{1,2}:\d{2}(:\d{2})?\b` once hours/minutes are read: greedy
optional seconds, falling back to the bare match when the trailing
boundary fails. `base` is the length matched so far. -/
def tsOptSec (rest : List Char) (base : Nat) : Option Nat :=
  match rest with
  | ':' :: c :: d :: rest2 =>
    if jsIsDigit c && jsIsDigit d then
      if !isWordOpt rest2.head? then some (base + 3)
      else some base
    else some base
  | _ => if !isWordOpt rest.head? then some base else none

def tsMatchOne (hay : List Char) : Option Nat :=
  match hay with
  | a :: ':' :: c :: d :: rest =>
    if jsIsDigit a && jsIsDigit c && jsIsDigit d then tsOptSec rest 4 else none
  | _ => none

/-- `/\b\d{1,2}:\d{2}(:\d{2})?\b/` at the head of `hay` (leading
boundary checked by the caller): two-digit hours first, then one. -/
def matchTimestampAt (hay : List Char) : Option Nat :=
  match hay with
  | a :: b :: ':' :: c :: d :: rest =>
    if jsIsDigit a && jsIsDigit b && jsIsDigit c && jsIsDigit d then tsOptSec rest 5
    else tsMatchOne hay
  | _ => tsMatchOne hay

def timestampsReplaceAux (prev : Option Char) (hay : List Char) : List Char :=
  match hay with
  | [] => []
  | c :: t =>
    if !isWordOpt prev && jsIsDigit c then
      match matchTimestampAt (c :: t) with
      | some n => ' ' :: timestampsReplaceAux ((c :: t).take n).getLast? (t.drop (n - 1))
      | none => c :: timestampsReplaceAux (some c) t
    else c :: timestampsReplaceAux (some c) t
  termination_by hay.length
  decreasing_by
  · have := t.length_drop (n - 1)
    simp only [List.length_cons]
    omega
  · simp
  · simp

def timestampsTestAux (prev : Option Char) : List Char → Bool
  | [] => false
  | c :: t =>
    (!isWordOpt prev && jsIsDigit c && (matchTimestampAt (c :: t)).isSome) ||
    timestampsTestAux (some c) t

def timestampsTest (s : String) : Bool := timestampsTestAux none s.toList

def timestampsReplace (s : String) : String :=
  String.mk (timestampsReplaceAux none s.toList)

def headerKeywords : List (List Char) :=
  (["CHAPTER", "SECTION", "PART", "PAGE", "MODULE", "UNIT"]).map String.toList

/-- `\s+\d+[:.]?` after a header keyword. -/
def matchHeaderTail (cs : List Char) : Option Nat :=
  let ws := cs.takeWhile jsIsWs
  if ws.isEmpty then none
  else
    let rest := cs.dropWhile jsIsWs
    let ds := rest.takeWhile jsIsDigit
    if ds.isEmpty then none
    else
      let rest2 := rest.dropWhile jsIsDigit
      let extra : Nat := match rest2.head? with
        | some ':' => 1
        | some '.' => 1
        | _ => 0
      some (ws.length + ds.length + extra)

/-- `(CHAPTER|SECTION|PART|PAGE|MODULE|UNIT)\s+\d+[:.]?`, case
insensitive, at the head of `cs`. -/
def matchHeaderAt (cs : List Char) : Option Nat :=
  headerKeywords.findSome? (fun kw =>
    if prefixMatchCI true kw cs then
      (matchHeaderTail (cs.drop kw.length)).map (fun n => n + kw.length)
    else none)

def headersReplaceAux (hay : List Char) (isIndexZero : Bool) : List Char :=
  match hay with
  | [] => []
  | c :: t =>
    match (if isIndexZero then matchHeaderAt (c :: t) else none) with
    | some n => ' ' :: headersReplaceAux (t.drop (n - 1)) false
    | none =>
      if c = '\n' then
        match matchHeaderAt t with
        | some n => ' ' :: headersReplaceAux (t.drop n) false
        | none => c :: headersReplaceAux t false
      else c :: headersReplaceAux t false
  termination_by hay.length
  decreasing_by
  · have := t.length_drop (n - 1)
    simp only [List.length_cons]
    omega
  · have := t.length_drop n
    simp only [List.length_cons]
    omega
  · simp
  · simp

def headersTestAux : List Char → Bool → Bool
  | [], _ => false
  | c :: t, isIndexZero =>
    (isIndexZero && (matchHeaderAt (c :: t)).isSome) ||
    (c = '\n' && (matchHeaderAt t).isSome) ||
    headersTestAux t false

def headersTest (s : String) : Bool := headersTestAux s.toList true

def headersReplace (s : String) : String := String.mk (headersReplaceAux s.toList true)

/-- `(\d+\s*\|\s*Page|Page\s*\d+|^\d+$)` (flags `im`) after the
`(^|\n)` part; the current position is always a line start here. -/
def matchPageMarkerAt (cs : List Char) : Option Nat :=
  let alt1 : Option Nat :=
    let ds := cs.takeWhile jsIsDigit
    if ds.isEmpty then none
    else
      let r1 := cs.dropWhile jsIsDigit
      let w1 := r1.takeWhile jsIsWs
      let r2 := r1.dropWhile jsIsWs
      match r2 with
      | '|' :: r3 =>
        let w2 := r3.takeWhile jsIsWs
        let r4 := r3.dropWhile jsIsWs
        if prefixMatchCI true ("Page").toList r4 then
          some (ds.length + w1.length + 1 + w2.length + 4)
        else none
      | _ => none
  match alt1 with
  | some n => some n
  | none =>
    let alt2 : Option Nat :=
      if prefixMatchCI true ("Page").toList cs then
        let r1 := cs.drop 4
        let w := r1.takeWhile jsIsWs
        let r2 := r1.dropWhile jsIsWs
        let ds := r2.takeWhile jsIsDigit
        if ds.isEmpty then none else some (4 + w.length + ds.length)
      else none
    match alt2 with
    | some n => some n
    | none =>
      let ds := cs.takeWhile jsIsDigit
      if ds.isEmpty then none
      else
        match (cs.dropWhile jsIsDigit).head? with
        | none => some ds.length
        | some '\n' => some ds.length
        | _ => none

def pageMarkersReplaceAux (hay : List Char) (lineStart : Bool) : List Char :=
  match hay with
  | [] => []
  | c :: t =>
    match (if lineStart then matchPageMarkerAt (c :: t) else none) with
    | some n => ' ' :: pageMarkersReplaceAux (t.drop (n - 1)) false
    | none =>
      if c = '\n' then
        match matchPageMarkerAt t with
        | some n => ' ' :: pageMarkersReplaceAux (t.drop n) false
        | none => c :: pageMarkersReplaceAux t true
      else c :: pageMarkersReplaceAux t false
  termination_by hay.length
  decreasing_by
  · have := t.length_drop (n - 1)
    simp only [List.length_cons]
    omega
  · have := t.length_drop n
    simp only [List.length_cons]
    omega
  · simp
  · simp

def pageMarkersTestAux : List Char → Bool → Bool
  | [], _ => false
  | c :: t, lineStart =>
    (lineStart && (matchPageMarkerAt (c :: t)).isSome) ||
    (c = '\n' && (matchPageMarkerAt t).isSome) ||
    pageMarkersTestAux t (c = '\n')

def pageMarkersTest (s : String) : Bool := pageMarkersTestAux s.toList true

def pageMarkersReplace (s : String) : String :=
  String.mk (pageMarkersReplaceAux s.toList true)

/-- `\s{2,}` → `' '`: collapse each run of two or more whitespace
characters to one space (single whitespace characters are untouched). -/
def isWsOpt : Option Char → Bool
  | some c => jsIsWs c
  | none => false

def multiSpacesReplaceAux : List Char → List Char
  | [] => []
  | c :: t =>
    if jsIsWs c && isWsOpt t.head? then ' ' :: multiSpacesReplaceAux (t.dropWhile jsIsWs)
    else c :: multiSpacesReplaceAux t
  termination_by cs => cs.length
  decreasing_by
  · have hle : ∀ (l : List Char), (l.dropWhile jsIsWs).length ≤ l.length := by
      intro l
      induction l with
      | nil => simp
      | cons a l ih =>
        rw [List.dropWhile_cons]
        split
        · simp only [List.length_cons]
          omega
        · simp
    have := hle t
    simp only [List.length_cons]
    omega
  · simp

def multiSpacesTest : List Char → Bool
  | a :: b :: t => (jsIsWs a && jsIsWs b) || multiSpacesTest (b :: t)
  | _ => false

/-- `replace(/(^\s*\w|[\.\?!]\s*\w)/g, c => c.toUpperCase())` as a
single left-to-right pass. The flag records whether the scanner is in
a region (string start, or just after `.`/`?`/`!`) where, after
optional whitespace, the next word character completes a match and is
uppercased; whitespace and punctuation in a match are unchanged by
`toUpperCase`, so only that word character changes. -/
def sentenceCaseAux : List Char → Bool → List Char
  | [], _ => []
  | c :: t, active =>
    if active then
      if jsIsWs c then c :: sentenceCaseAux t true
      else if jsIsWordChar c then c.toUpper :: sentenceCaseAux t false
      else if c = '.' ∨ c = '?' ∨ c = '!' then c :: sentenceCaseAux t true
      else c :: sentenceCaseAux t false
    else
      if c = '.' ∨ c = '?' ∨ c = '!' then c :: sentenceCaseAux t true
      else c :: sentenceCaseAux t false

def sentenceCaseList (cs : List Char) : List Char := sentenceCaseAux cs true

def multiSpacesTestStr (s : String) : Bool := multiSpacesTest s.toList

def multiSpacesReplace (s : String) : String := String.mk (multiSpacesReplaceAux s.toList)

def sentenceCaseStr (s : String) : String := String.mk (sentenceCaseList s.toList)

/-- `content.charAt(0).toUpperCase() + content.slice(1).toLowerCase()`. -/
def shoutFix (s : String) : String :=
  match s.toList with
  | [] => ""
  | c :: t => String.mk (c.toUpper :: t.map Char.toLower)

/-- The OCR confusion table: (pattern, case-insensitive, replacement),
in source order. -/
def ocrFixes : List (String × Bool × String) :=
  [("Ph0tosynthes1s", true, "Photosynthesis"),
   ("rn", false, "m"),
   ("1", false, "I"),
   ("l", false, "I"),
   ("vv", false, "w"),
   ("teh", true, "the"),
   ("w1th", true, "with"),
   ("dat4", true, "data")]

/-- The abbreviation dictionary, in source order; all replacements are
case-insensitive whole-word substitutions. -/
def abbreviationPairs : List (String × String) :=
  [("CO2", "carbon dioxide"), ("H2O", "water"), ("w/", "with"), ("w/o", "without"),
   ("vs", "versus"), ("etc", "et cetera"), ("e.g.", "for example"),
   ("i.e.", "that is"), ("approx.", "approximately")]

/-! ## Cleaner (`cleaner.ts`, current revision) -/

/-- The free-text cleaning cascade of `cleanUnifiedData` for one
non-structured record: returns the cleaned content and the fix-counter
keys incremented, in order. -/
def cleanTextSteps (st : SourceType) (content0 : String) : String × List String :=
  let s1 : String × List String :=
    if headersTest content0 then (jsTrim (headersReplace content0), ["headers_removed"])
    else (content0, [])
  let s2 : String × List String :=
    if pageMarkersTest s1.1 then
      (jsTrim (pageMarkersReplace s1.1), s1.2 ++ ["page_markers_removed"])
    else s1
  let s3 : String × List String :=
    if timestampsTest s2.1 then
      (jsTrim (timestampsReplace s2.1), s2.2 ++ ["timestamps_removed_from_text"])
    else s2
  let s4 : String × List String :=
    if fillersTest s3.1 then
      (jsTrim (fillersReplace s3.1), s3.2 ++ ["filler_words_removed"])
    else s3
  let s5 : String × List String :=
    if st = .pdf ∨ st = .image then
      ocrFixes.foldl (fun acc fix =>
        if jsWordTest fix.2.1 fix.1 acc.1 then
          (jsWordReplace fix.2.1 fix.1 fix.2.2 acc.1, acc.2 ++ ["ocr_errors_fixed"])
        else acc) s4
    else s4
  let s6 : String × List String :=
    abbreviationPairs.foldl (fun acc pair =>
      if jsWordTest true pair.1 acc.1 then
        (jsWordReplace true pair.1 pair.2 acc.1, acc.2 ++ ["abbreviations_expanded"])
      else acc) s5
  let s7 : String × List String :=
    if s6.1 ≠ "" then
      let cased := sentenceCaseStr s6.1
      if cased = jsToUpper cased ∧ cased.toList.length > 10 then
        (shoutFix cased, s6.2 ++ ["shouting_fixed"])
      else (cased, s6.2)
    else s6
  let s8 : String × List String :=
    if multiSpacesTestStr s7.1 then
      (jsTrim (multiSpacesReplace s7.1), s7.2 ++ ["spacing_fixed"])
    else s7
  s8

/-- `['api', 'csv', 'log', 'json'].includes(record.source_type)`
(`'json'` is not a member of the `source_type` union, so it never
matches). -/
def isStructuredSource (st : SourceType) : Bool :=
  st == .api || st == .csv || st == .log

structure CleaningStats where
  initial_records : Nat
  records_after_validation : Nat
  records_after_cleaning : Nat
  records_with_critical_errors : Nat
  records_with_warnings : Nat
  dropped_records : Nat
  fixes_applied : List (String × Nat)
deriving DecidableEq, Repr

def bumpFix (fixes : List (String × Nat)) (k : String) : List (String × Nat) :=
  match fixes with
  | [] => [(k, 1)]
  | e :: t => if e.1 = k then (e.1, e.2 + 1) :: t else e :: bumpFix t k

def bumpFixes (fixes : List (String × Nat)) : List String → List (String × Nat)
  | [] => fixes
  | k :: ks => bumpFixes (bumpFix fixes k) ks

def setFix (fixes : List (String × Nat)) (k : String) (v : Nat) : List (String × Nat) :=
  match fixes with
  | [] => [(k, v)]
  | e :: t => if e.1 = k then (k, v) :: t else e :: setFix t k v

def fixCount (fixes : List (String × Nat)) (k : String) : Nat :=
  match fixes.find? (fun e => e.1 == k) with
  | some e => e.2
  | none => 0

/-- The dedup signature
`${source_type}:${content.toLowerCase().trim()}:${group_id}`. -/
def signatureOf (st : SourceType) (content gid : String) : String :=
  sourceTypeStr st ++ ":" ++ jsTrim (jsToLower content) ++ ":" ++ gid

/-- Text-cleaning phase state of `cleanUnifiedData`. -/
structure CUState where
  seen : List String
  out : List UnifiedRecord
  fixes : List (String × Nat)
  dropped : Nat
deriving DecidableEq, Repr

/-- The per-record body of the text-cleaning phase: structured sources
skip the whole cascade; then content-signature deduplication. -/
def cuStep (st : CUState) (record : UnifiedRecord) : CUState :=
  let cleaned :=
    if isStructuredSource record.source_type then (record.structured_content, ([] : List String))
    else cleanTextSteps record.source_type record.structured_content
  let fixes := bumpFixes st.fixes cleaned.2
  let signature := signatureOf record.source_type cleaned.1 record.group_id
  if st.seen.contains signature then
    { st with fixes := bumpFix fixes "duplicates_removed", dropped := st.dropped + 1 }
  else
    { seen := st.seen ++ [signature]
      out := st.out ++ [{ record with structured_content := cleaned.1 }]
      fixes := fixes
      dropped := st.dropped }

def cuPhase1 (records : List UnifiedRecord) : CUState :=
  records.foldl cuStep ⟨[], [], [], 0⟩

structure CleanUnifiedResult where
  cleanedRecords : List UnifiedRecord
  stats : CleaningStats
deriving DecidableEq, Repr

/-- `cleanUnifiedData` (current revision): text-clean + dedup, then
batch validation on the cleaned records, then merged stats. -/
def cleanUnifiedData (p : Platform) (records : List UnifiedRecord) : CleanUnifiedResult :=
  let st := cuPhase1 records
  let batchResult := processBatch (fun r => Except.ok (validateRecord p r)) st.out
  { cleanedRecords := batchResult.successful_records
    stats :=
      { initial_records := records.length
        records_after_validation := batchResult.summary.total
        records_after_cleaning := batchResult.successful_records.length
        records_with_critical_errors := batchResult.summary.failed
        records_with_warnings := batchResult.summary.warnings
        dropped_records := st.dropped + batchResult.summary.failed
        fixes_applied := setFix st.fixes "validation_passed" batchResult.summary.success } }

/-- `/\w\S*/g` title-casing used for `name` fields. -/
def titleCaseWords : List Char → List Char
  | [] => []
  | c :: t =>
    if jsIsWordChar c then
      c.toUpper :: ((t.takeWhile (fun d => !jsIsWs d)).map Char.toLower) ++
        titleCaseWords (t.dropWhile (fun d => !jsIsWs d))
    else c :: titleCaseWords t
  termination_by cs => cs.length
  decreasing_by
  · have hle : ∀ (l : List Char), (l.dropWhile (fun d => !jsIsWs d)).length ≤ l.length := by
      intro l
      induction l with
      | nil => simp
      | cons a l ih =>
        rw [List.dropWhile_cons]
        split
        · simp only [List.length_cons]
          omega
        · simp
    have := hle t
    simp only [List.length_cons]
    omega
  · simp

/-- The per-field coercion of `cleanData`, keyed by semantic type;
returns the new value and the fix keys incremented. Null/undefined
values are handled by the caller. -/
def cleanFieldValue (p : Platform) (ty : SemanticType) (value : JSValue) :
    JSValue × List String :=
  match ty with
  | .name =>
    match value with
    | .str s =>
      let v2 := String.mk (titleCaseWords (jsTrim s).toList)
      (.str v2, if v2 ≠ s then ["names_formatted"] else [])
    | v => (v, [])
  | .contact_info =>
    match value with
    | .str s =>
      let strVal := jsTrim s
      if jsIncludes strVal "@" then
        let emailVal := jsToLower strVal
        if emailShapeTest emailVal then
          (.str emailVal, if emailVal ≠ s then ["emails_lowercased"] else [])
        else (.null, [])
      else
        let digits := String.mk (strVal.toList.filter jsIsDigit)
        if digits.toList.length < 7 ∨ digits.toList.length > 15 then (.null, [])
        else (.str digits, if digits ≠ strVal then ["phones_normalized"] else [])
    | v => (v, [])
  | .date =>
    match p.jsDateISO value with
    | none => (.null, [])
    | some formatted =>
      (.str formatted, if value ≠ .str formatted then ["dates_standardized"] else [])
  | .numeric_amount =>
    let numStr := (jsString p value).toList.filter (fun c => jsIsDigit c || c = '.' || c = '-')
    match parseFloatRestricted numStr with
    | none => (.null, [])
    | some parsed =>
      if parsed < 0 then (.null, ["negative_values_nullified"])
      else (.num parsed, if value ≠ .num parsed then ["numerics_standardized"] else [])
  | .boolean_flag =>
    let boolStr := jsToLower (jsString p value)
    let nv : JSValue :=
      if ["true", "1", "yes", "on", "active"].contains boolStr then .bool true
      else if ["false", "0", "no", "off", "inactive"].contains boolStr then .bool false
      else .null
    (nv, if nv ≠ value then ["booleans_normalized"] else [])
  | _ =>
    match value with
    | .str s =>
      let v2 := jsTrim s
      (.str v2, if (JSValue.str v2) ≠ (JSValue.str s) then ["text_trimmed"] else [])
    | v => (v, [])

/-- The per-row field-cleaning loop of `cleanData`: iterate the mapping
entries, build the target record, collect fix keys. -/
def cleanRow (p : Platform) (mapping : List (String × String)) (sm : SemanticMapping)
    (row : Row) : Row × List String :=
  mapping.foldl (fun acc e =>
    let semanticType := (smLookup sm e.1).getD .free_text
    let value := rowGet row e.1
    if value == .null || value == .undefv then
      (rowSet acc.1 e.2 .null, acc.2)
    else
      let cv := cleanFieldValue p semanticType value
      (rowSet acc.1 e.2 cv.1, acc.2 ++ cv.2)) (([] : Row), ([] : List String))

structure CleanDataState where
  seenIds : List String
  dropped : List Nat
  cleaned : List Row
  fixes : List (String × Nat)
deriving DecidableEq, Repr

/-- The per-row body of `cleanData`: the primary-identifier row check,
then field cleaning. -/
def cleanDataStep (p : Platform) (mapping : List (String × String)) (sm : SemanticMapping)
    (identifierCols : List String) (st : CleanDataState) (e : Nat × Row) : CleanDataState :=
  let proceed := fun (st : CleanDataState) =>
    let rf := cleanRow p mapping sm e.2
    { st with cleaned := st.cleaned ++ [rf.1], fixes := bumpFixes st.fixes rf.2 }
  match identifierCols.head? with
  | none => proceed st
  | some primaryIdCol =>
    let rawId := rowGet e.2 primaryIdCol
    if rawId == .null || rawId == .undefv || jsTrim (jsString p rawId) = "" then
      { st with dropped := st.dropped ++ [e.1] }
    else
      let idVal := jsTrim (jsString p rawId)
      if st.seenIds.contains idVal then
        { st with dropped := st.dropped ++ [e.1] }
      else
        proceed { st with seenIds := st.seenIds ++ [idVal] }

def smUpsert (sm : SemanticMapping) (k : String) (v : SemanticType) : SemanticMapping :=
  match sm with
  | [] => [(k, v)]
  | e :: t => if e.1 = k then (k, v) :: t else e :: smUpsert t k v

/-- Re-keys the semantic mapping by target column names. -/
def buildTargetSM (mapping : List (String × String)) (sm : SemanticMapping) :
    SemanticMapping :=
  mapping.foldl (fun acc e =>
    match smLookup sm e.1 with
    | some ty => smUpsert acc e.2 ty
    | none => acc) []

def insertUniqueNat (l : List Nat) (x : Nat) : List Nat :=
  if l.contains x then l else l ++ [x]

/-- The `Set` of `issue.row - 1` indices of a given severity, in
insertion (first-occurrence) order. -/
def collectSevRows (issues : List ValidationIssue) (sev : IssueSeverity) : List Nat :=
  issues.foldl (fun acc issue =>
    if issue.severity == sev then insertUniqueNat acc (issue.row - 1) else acc) []

def insertAscNat (x : Nat) : List Nat → List Nat
  | [] => [x]
  | y :: t => if x ≤ y then x :: y :: t else y :: insertAscNat x t

/-- `dropped_rows.sort((a, b) => a - b)`. -/
def sortAscNat (l : List Nat) : List Nat := l.foldr insertAscNat []

structure CleaningReport where
  stats : CleaningStats
  cleaned_data : List Row
  dropped_rows : List Nat
deriving DecidableEq, Repr

/-- `cleanData` (current revision): identifier row checks and field
cleaning, then re-validation of the cleaned rows under the target
column names, then dropping of rows with critical issues. -/
def cleanData (p : Platform) (data : List Row) (mapping : List (String × String))
    (sm : SemanticMapping) : CleaningReport :=
  let identifierCols := (sm.filter (fun e => e.2 == SemanticType.identifier)).map (fun e => e.1)
  let st := data.enum.foldl (cleanDataStep p mapping sm identifierCols) ⟨[], [], [], []⟩
  let targetSM := buildTargetSM mapping sm
  let report := validateData p st.cleaned targetSM
  let critRows := collectSevRows report.issues .critical
  let warnRows := collectSevRows report.issues .warning
  let finalCleaned := (st.cleaned.enum.filter (fun e => !critRows.contains e.1)).map
    (fun e => e.2)
  let dropped2 := critRows.foldl (fun acc idx =>
    if acc.contains idx then acc else acc ++ [idx]) st.dropped
  let dropped_rows := sortAscNat dropped2
  { stats :=
      { initial_records := data.length
        records_after_validation := data.length
        records_after_cleaning := finalCleaned.length
        records_with_critical_errors := critRows.length
        records_with_warnings := warnRows.length
        dropped_records := dropped_rows.length
        fixes_applied := st.fixes }
    cleaned_data := finalCleaned
    dropped_rows := dropped_rows }

/-! ## Semantic type inferencer (`semantic-mapper.ts`) -/

/-- `norm`+`tokens`: lowercase, break on non-alphanumerics, drop
empties. -/
def splitDropEmpty : List Char → List Char → List String
  | [], acc => if acc.isEmpty then [] else [String.mk acc.reverse]
  | c :: t, acc =>
    if c = ' ' then
      if acc.isEmpty then splitDropEmpty t []
      else String.mk acc.reverse :: splitDropEmpty t []
    else splitDropEmpty t (c :: acc)

def tokensOf (s : String) : List String :=
  let normed := (jsToLower s).toList.map (fun c => if isLowerAlnum c then c else ' ')
  splitDropEmpty normed []

def idTokens : List String :=
  ["id", "uid", "user_id", "customer_id", "client_id", "record_id", "invoice",
   "invoice_id", "order", "order_id", "vin", "vehicle_id", "serial", "serial_number",
   "chassis", "ticket", "case", "mrn", "patient_id"]

def nameTokens : List String :=
  ["name", "full_name", "fullname", "first_name", "last_name", "display_name",
   "given_name", "family_name", "company", "organization", "org", "title"]

def amountTokens : List String :=
  ["amount", "price", "cost", "salary", "wage", "income", "revenue", "total",
   "balance", "msrp", "ctc", "fee", "payment"]

def contactTokens : List String :=
  ["email", "mail", "email_address", "e-mail", "phone", "mobile", "cell", "tel",
   "contact"]

def dateTokens : List String :=
  ["date", "dob", "doj", "joined_at", "created_at", "updated_at", "timestamp",
   "time", "year"]

def categoryHintTokens : List String :=
  ["status", "type", "category", "class", "group", "segment", "color", "make",
   "model", "fuel", "fuel_type", "transmission"]

def textTokens : List String :=
  ["description", "notes", "note", "comment", "remarks", "address", "summary",
   "details", "text"]

def isEmailPred (v : JSValue) : Bool :=
  match v with
  | .str s => emailShapeTest (jsTrim s)
  | _ => false

/-- `isPhone`: digit count of `String(v)` in `[10, 15]` (note: this
inference helper uses 10–15, unlike the 7–15 of validator/cleaner). -/
def isPhonePred (p : Platform) (v : JSValue) : Bool :=
  match v with
  | .null => false
  | .undefv => false
  | v =>
    let digits := (jsString p v).toList.filter jsIsDigit
    10 ≤ digits.length && digits.length ≤ 15

def hasCurrencyPred (p : Platform) (v : JSValue) : Bool :=
  match v with
  | .null => false
  | .undefv => false
  | v =>
    let s := jsToLower (jsString p v)
    s.toList.any (fun c => c = '$' || c = '€' || c = '£' || c = '₹') ||
    jsIncludes s "usd" || jsIncludes s "eur" || jsIncludes s "gbp" ||
    jsIncludes s "inr" || jsIncludes s "cad" || jsIncludes s "aud"

def isNumericPred (p : Platform) (v : JSValue) : Bool :=
  match v with
  | .null => false
  | .undefv => false
  | .str "" => false
  | .num _ => true
  | v =>
    let s := jsTrim (jsString p v)
    if s = "" then false else (p.jsNumber s).isSome

def isBooleanishPred (p : Platform) (v : JSValue) : Bool :=
  match v with
  | .bool _ => true
  | v =>
    ["true", "false", "yes", "no", "y", "n", "0", "1"].contains
      (jsToLower (jsTrim (jsString p v)))

/-- `^\d{4}-\d{2}-\d{2}|^\d{2}\/\d{2}\/\d{4}|^\d{4}\/\d{2}\/\d{2}` as a
prefix test. -/
def dateishPrefixTest (s : String) : Bool :=
  match s.toList.take 10 with
  | [c0, c1, c2, c3, c4, c5, c6, c7, c8, c9] =>
    (jsIsDigit c0 && jsIsDigit c1 && jsIsDigit c2 && jsIsDigit c3 && c4 = '-' &&
     jsIsDigit c5 && jsIsDigit c6 && c7 = '-' && jsIsDigit c8 && jsIsDigit c9) ||
    (jsIsDigit c0 && jsIsDigit c1 && c2 = '/' && jsIsDigit c3 && jsIsDigit c4 &&
     c5 = '/' && jsIsDigit c6 && jsIsDigit c7 && jsIsDigit c8 && jsIsDigit c9) ||
    (jsIsDigit c0 && jsIsDigit c1 && jsIsDigit c2 && jsIsDigit c3 && c4 = '/' &&
     jsIsDigit c5 && jsIsDigit c6 && c7 = '/' && jsIsDigit c8 && jsIsDigit c9)
  | _ => false

def isDateishPred (p : Platform) (v : JSValue) : Bool :=
  match v with
  | .null => false
  | .undefv => false
  | .str "" => false
  | v =>
    let s := jsTrim (jsString p v)
    if dateishPrefixTest s then (p.dateParse s).isSome else false

/-- The non-null sample values of a column. -/
def colVals (data : List Row) (col : String) : List JSValue :=
  (data.map (fun r => rowGet r col)).filter
    (fun v => !(v == JSValue.null || v == JSValue.undefv || v == JSValue.str ""))

def ratioOf (pred : JSValue → Bool) (vals : List JSValue) : JNum :=
  if vals.length > 0 then (jnOfNat (vals.filter pred).length).div (jnOfNat vals.length)
  else jnOfNat 0

/-- The ordered decision chain of `inferSemanticMapping` for one
column. -/
def inferColumnType (p : Platform) (data : List Row) (col : String) : SemanticType :=
  let vals := colVals data col
  let nonNull := vals.length
  let uniques := dedupFirst (vals.map (jsString p))
  let uniqueRatio : JNum :=
    if nonNull > 0 then (jnOfNat uniques.length).div (jnOfNat nonNull) else jnOfNat 0
  let strVals := vals.map (jsString p)
  let avgLen : JNum :=
    if strVals.length > 0 then
      (jnOfNat ((strVals.map (fun s => s.toList.length)).sum)).div (jnOfNat strVals.length)
    else jnOfNat 0
  let numRatio := ratioOf (isNumericPred p) vals
  let boolRatio := ratioOf (isBooleanishPred p) vals
  let emailRatio := ratioOf isEmailPred vals
  let phoneRatio := ratioOf (isPhonePred p) vals
  let currencyHit := vals.any (hasCurrencyPred p)
  let tks := tokensOf col
  let hasTok := fun (set : List String) => tks.any (fun t => set.contains t)
  if jn 1 2 < emailRatio ∨ jn 1 2 < phoneRatio ∨ hasTok contactTokens then .contact_info
  else if jn 7 10 < boolRatio then .boolean_flag
  else if hasTok dateTokens ∨ (nonNull > 0 ∧ jn 3 5 < ratioOf (isDateishPred p) vals) then
    .date
  else if (jn 9 10 < uniqueRatio ∧ jnOfNat 6 ≤ avgLen) ∨ hasTok idTokens then .identifier
  else if jn 7 10 < numRatio ∧ (currencyHit ∨ hasTok amountTokens) then .numeric_amount
  else if hasTok nameTokens then .name
  else if hasTok textTokens ∨ jnOfNat 20 < avgLen then .free_text
  else if hasTok categoryHintTokens ∨ uniqueRatio < jn 1 5 then .categorical
  else if jn 7 10 < numRatio then .numeric_amount
  else .free_text

structure AnalysisColumn where
  name : String
deriving DecidableEq, Repr

structure AnalysisResult where
  columns : List AnalysisColumn
deriving DecidableEq, Repr

def inferSemanticMapping (p : Platform) (analysis : AnalysisResult) (data : List Row) :
    SemanticMapping :=
  (analysis.columns.map (fun c => c.name)).foldl
    (fun acc col => smUpsert acc col (inferColumnType p data col)) []

/-! ## Concrete fixtures used by the claim theorems -/

/-- A platform whose oracles are queried, in the theorems below, only
where the stub value agrees with the JS builtin (e.g. `Number`,
`Date.parse` and `JSON.parse` all fail on the non-numeric /
non-date / non-JSON strings involved). -/
def defaultPlatform : Platform :=
  { numToString := fun _ => ""
    jsNumber := fun _ => none
    dateParse := fun _ => none
    nowMs := 0
    jsonParses := fun _ => false
    jsonTopicKey := fun _ => false
    parseFloatOf := fun _ => none
    jsDateISO := fun _ => none }

/-- `Number(s)` for integer-literal strings (the only strings the C3
fixture feeds it); `none` (NaN) otherwise. -/
def simpleIntNumber (s : String) : Option JNum :=
  match s.toList with
  | '-' :: ds =>
    if ds ≠ [] ∧ ds.all jsIsDigit then some (jnOfNat (digitsToNat ds)).neg else none
  | ds => if ds ≠ [] ∧ ds.all jsIsDigit then some (jnOfNat (digitsToNat ds)) else none

def pC3 : Platform := { defaultPlatform with jsNumber := simpleIntNumber }

def dataC3 : List Row :=
  [[("a", .str "-1")], [("a", .str "-2")], [("a", .str "-3")], [("a", .str "-4")],
   [("a", .str "-5")], [("a", .str "-6")], [("a", .str "-7")], [("a", .str "-8")],
   [("a", .str "-9")], [("a", .str "-10000")]]

def smC3 : SemanticMapping := [("a", .numeric_amount)]

/-- Modelled from the spec: the claimed per-field score formula -- the
validity ratio times 100, reduced by a warning penalty capped at 50
points, clamped to [0, 100] and rounded. -/
def specCappedFieldScore (valid total warnings : Nat) : Int :=
  let validRatio : JNum := if total > 0 then (jnOfNat valid).div (jnOfNat total) else jnOfNat 0
  let warningRatio : JNum :=
    if total > 0 then (jnOfNat warnings).div (jnOfNat total) else jnOfNat 0
  jsRound (JNum.maxJ (jnOfNat 0) (JNum.minJ (jnOfNat 100)
    ((validRatio.mul (jnOfNat 100)).sub
      (JNum.minJ (warningRatio.mul (jnOfNat 50)) (jnOfNat 50)))))

def dataC4 : List Row :=
  [[("a", .null), ("b", .str "x")], [("a", .str "1"), ("b", .null)]]

def mapC4 : List (String × String) := [("a", "a"), ("b", "b")]

def smC4 : SemanticMapping := [("a", .identifier), ("b", .identifier)]

def recC6 : UnifiedRecord :=
  { id := "r6", group_id := "g", topic := "t", source_type := .text,
    content_type := "note", structured_content := "1234567890123.",
    raw_content := none, metadata := ⟨none, none⟩ }

def recC6img : UnifiedRecord :=
  { id := "i1", group_id := "g", topic := "t", source_type := .image,
    content_type := "scan", structured_content := "1 mean x",
    raw_content := none, metadata := ⟨none, none⟩ }

def recC6img2 : UnifiedRecord :=
  { id := "i2", group_id := "g", topic := "t", source_type := .image,
    content_type := "scan", structured_content := "X",
    raw_content := none, metadata := ⟨none, none⟩ }

def recC8 : UnifiedRecord :=
  { id := "r8", group_id := "g", topic := "t", source_type := .api,
    content_type := "log", structured_content := "",
    raw_content := none, metadata := ⟨none, none⟩ }

def recC8csv : UnifiedRecord :=
  { id := "r8c", group_id := "g", topic := "t", source_type := .csv,
    content_type := "log", structured_content := "key: value",
    raw_content := none, metadata := ⟨none, none⟩ }

def fileRecC2 (idv content : String) : UnifiedRecord :=
  { id := idv, group_id := "g", topic := "t", source_type := .text,
    content_type := "note", structured_content := content,
    raw_content := none, metadata := ⟨some "f.json", none⟩ }

def recC2a : UnifiedRecord := fileRecC2 "r1" "hello"

def recC2b : UnifiedRecord := fileRecC2 "r2" ""

def recC2c : UnifiedRecord := fileRecC2 "r3" "world"

def validateC2 : UnifiedRecord → Except String ValidationResult :=
  fun r => Except.ok (validateRecord defaultPlatform r)

def recC1pdf : UnifiedRecord :=
  { id := "p1", group_id := "", topic := "", source_type := .pdf,
    content_type := "study_text", structured_content := "photosynthesis basics",
    raw_content := none, metadata := ⟨some "doc.pdf", none⟩ }

def recC1text : UnifiedRecord :=
  { id := "t1", group_id := "", topic := "", source_type := .text,
    content_type := "note", structured_content := "notes about irrelevant things",
    raw_content := none, metadata := ⟨none, none⟩ }

def recC9 : UnifiedRecord :=
  { id := "r9", group_id := "g", topic := "t", source_type := .text,
    content_type := "note", structured_content := "fine",
    raw_content := none, metadata := ⟨none, none⟩ }

/-- Pointwise concatenation of batch accumulators (the processing loops
are homomorphic with respect to it). -/
def accAppend (a b : BatchAcc) : BatchAcc :=
  ⟨a.successes ++ b.successes, a.failures ++ b.failures,
   a.success + b.success, a.failed + b.failed, a.warnings + b.warnings⟩

def lookupGroup (g : String) (gs : List (String × List UnifiedRecord)) :
    List UnifiedRecord :=
  match gs.find? (fun e => e.1 == g) with
  | some e => e.2
  | none => []

/-! # Theorems -/

theorem extractCanonicalTopic_ne_empty (c st : String) :
    extractCanonicalTopic c st ≠ "" := by
  simp only [extractCanonicalTopic]
  split_ifs <;> decide

theorem groupIdOfTopic_ne_empty (t : String) : groupIdOfTopic t ≠ "" := by
  unfold groupIdOfTopic
  intro hcontra
  have hlen := congrArg String.length hcontra
  simp only [String.length_append] at hlen
  have h6 : ("topic-" : String).length = 6 := rfl
  have h1 : ("-" : String).length = 1 := rfl
  have h0 : ("" : String).length = 0 := rfl
  omega

/-- C1: for any batch whose first `pdf` record is `a`,
`linkRecordsByTopic` gives every output record the anchor topic
extracted from `a`'s content and the group id derived from that
topic. -/
theorem C1_anchor_topic_invariant (records : List UnifiedRecord) (a : UnifiedRecord)
    (h : records.find? (fun r => r.source_type == SourceType.pdf) = some a) :
    ∀ out ∈ linkRecordsByTopic records,
      out.topic = extractCanonicalTopic (anchorContent a) "pdf" ∧
      out.group_id = groupIdOfTopic (extractCanonicalTopic (anchorContent a) "pdf") := by
  intro out hout
  unfold linkRecordsByTopic at hout
  rw [h] at hout
  dsimp only at hout
  rw [if_neg] at hout
  · obtain ⟨r, _, rfl⟩ := List.mem_map.mp hout
    exact ⟨rfl, rfl⟩
  · push_neg
    exact ⟨extractCanonicalTopic_ne_empty _ _, groupIdOfTopic_ne_empty _⟩

/-- Witness for C1 on a concrete two-record batch (a PDF about
photosynthesis plus an unrelated text record), applied at the first
output record. -/
theorem C1_anchor_topic_invariant_witness :
    ({ recC1pdf with
        topic := extractCanonicalTopic (anchorContent recC1pdf) "pdf"
        group_id := groupIdOfTopic (extractCanonicalTopic (anchorContent recC1pdf) "pdf")
      } : UnifiedRecord).topic = extractCanonicalTopic (anchorContent recC1pdf) "pdf" ∧
    ({ recC1pdf with
        topic := extractCanonicalTopic (anchorContent recC1pdf) "pdf"
        group_id := groupIdOfTopic (extractCanonicalTopic (anchorContent recC1pdf) "pdf")
      } : UnifiedRecord).group_id
        = groupIdOfTopic (extractCanonicalTopic (anchorContent recC1pdf) "pdf") :=
  C1_anchor_topic_invariant [recC1pdf, recC1text] recC1pdf (by decide)
    { recC1pdf with
        topic := extractCanonicalTopic (anchorContent recC1pdf) "pdf"
        group_id := groupIdOfTopic (extractCanonicalTopic (anchorContent recC1pdf) "pdf") }
    (by
      unfold linkRecordsByTopic
      rw [show ([recC1pdf, recC1text].find? (fun r => r.source_type == SourceType.pdf))
            = some recC1pdf from by decide]
      dsimp only
      rw [if_neg (by
        push_neg
        exact ⟨extractCanonicalTopic_ne_empty _ _, groupIdOfTopic_ne_empty _⟩)]
      simp only [List.map_cons]
      exact List.mem_cons_self _ _)

/-- C9: an exception thrown during validation of a record is converted
into a single synthetic HIGH `ForcedException` error carrying the
exception message, and the record is FAILED. (`processBatch`, built on
this total function, therefore never propagates a per-record
exception.) -/
theorem C9_exception_conversion
    (validate : UnifiedRecord → Except String ValidationResult)
    (r : UnifiedRecord) (msg : String) (h : validate r = Except.error msg) :
    processRecordSafely validate r =
      { record := some r
        errors := some [⟨"ForcedException",
          if msg = "" then "Unknown error processing record" else msg,
          Severity.HIGH, none, none⟩]
        status := RecStatus.FAILED } := by
  unfold processRecordSafely
  rw [h]

/-- Witness for C9: a validator that throws `"boom"`. -/
theorem C9_exception_conversion_witness :
    processRecordSafely (fun _ => Except.error "boom") recC9 =
      { record := some recC9
        errors := some [⟨"ForcedException", "boom", Severity.HIGH, none, none⟩]
        status := RecStatus.FAILED } := by
  have h := C9_exception_conversion (fun _ => Except.error "boom") recC9 "boom" rfl
  simpa using h

/-- C5 counterexample: under `contact_info`, the digit-free,
`@`-free string `"not-an-email"` does **not** pass through the cleaner
unchanged -- it is nullified (digit count 0 is outside [7, 15]). -/
theorem C5_contact_cleaning_counterexample :
    (cleanData defaultPlatform [[("c", JSValue.str "not-an-email")]] [("c", "c")]
      [("c", SemanticType.contact_info)]).cleaned_data = [[("c", JSValue.null)]] ∧
    JSValue.null ≠ JSValue.str "not-an-email" := by
  constructor
  · decide
  · decide

/-- C6 counterexample: `cleanUnifiedData` on this single-record batch
returns the batch unchanged, so a second run is the identical
computation -- and it increments the `shouting_fixed` counter again
(content with no cased letters satisfies the SHOUTING heuristic on
every run). -/
theorem C6_idempotence_counterexample :
    (cleanUnifiedData defaultPlatform [recC6]).cleanedRecords = [recC6] ∧
    fixCount (cleanUnifiedData defaultPlatform [recC6]).stats.fixes_applied
      "shouting_fixed" = 1 := by
  constructor
  · decide
  · decide

/-- C8 counterexample: an API-sourced record with empty content
survives deduplication (it is the only record, and the text pipeline is
skipped for it), yet it does not appear in the cleaner output, because
record-level validation fails it (EMPTY_CONTENT is CRITICAL). -/
theorem C8_structured_passthrough_counterexample :
    (cuPhase1 [recC8]).out = [recC8] ∧
    (cleanUnifiedData defaultPlatform [recC8]).cleanedRecords = [] := by
  constructor
  · decide
  · decide

/-- C4 counterexample: input row 0 is dropped at the identifier stage,
input row 1 survives it but carries a CRITICAL re-validation issue
(null second identifier) and is dropped from the output -- yet
`dropped_rows` is `[0]`: the claim's original input index 1 is not
recorded, because the re-validation index is an index into the
post-identifier-filter array and collides with the earlier drop. -/
theorem C4_critical_drop_counterexample :
    (cleanData defaultPlatform dataC4 mapC4 smC4).cleaned_data = [] ∧
    (cleanData defaultPlatform dataC4 mapC4 smC4).dropped_rows = [0] ∧
    dataC4.length = 2 := by
  refine ⟨by decide, by decide, by decide⟩

/-- C7 counterexample: a column literally named `name` (a name-token
match) is assigned `name`, not `contact_info` -- the contact rule keys
on the contact-token set, not the name-token set. -/
theorem C7_contact_precedence_counterexample :
    smLookup (inferSemanticMapping defaultPlatform ⟨[⟨"name"⟩]⟩
      [[("name", JSValue.str "alice")]]) "name" = some SemanticType.name ∧
    (tokensOf "name").any (fun t => nameTokens.contains t) = true := by
  constructor
  · decide
  · decide

theorem JNum.le_def (a b : JNum) :
    (a ≤ b) = (a.num * (b.den : Int) ≤ b.num * (a.den : Int)) := rfl

theorem JNum.lt_def (a b : JNum) :
    (a < b) = (a.num * (b.den : Int) < b.num * (a.den : Int)) := rfl

theorem mkJNum_den_pos (n d : Int) (hd : d ≠ 0) : 0 < (mkJNum n d).den := by
  unfold mkJNum
  rw [if_neg hd]
  dsimp only
  have hd2 : 0 < ((if d < 0 then (-1 : Int) else 1) * d).toNat := by
    split
    · have : (0 : Int) < -d := by omega
      simp only [neg_one_mul]
      omega
    · have : (0 : Int) < d := by omega
      simp only [one_mul]
      omega
  apply Nat.div_pos
  · exact Nat.le_of_dvd hd2 (Nat.gcd_dvd_right _ _)
  · exact Nat.gcd_pos_of_pos_right _ hd2

theorem JNum.mul_den_pos (a b : JNum) (ha : 0 < a.den) (hb : 0 < b.den) :
    0 < (a.mul b).den := by
  apply mkJNum_den_pos
  have : (0 : Int) < (a.den : Int) * (b.den : Int) := by positivity
  omega

theorem JNum.sub_den_pos (a b : JNum) (ha : 0 < a.den) (hb : 0 < b.den) :
    0 < (a.sub b).den := by
  apply mkJNum_den_pos
  have : (0 : Int) < (a.den : Int) * (b.den : Int) := by positivity
  omega

theorem jnOfNat_den_pos (n : Nat) : 0 < (jnOfNat n).den := by
  simp [jnOfNat]

/-- `Math.round(Math.max(0, Math.min(100, q)))` lies in `[0, 100]` for
any exact rational `q` with positive denominator. -/
theorem jsRound_clamp_bounds (q : JNum) (hq : 0 < q.den) :
    0 ≤ jsRound (JNum.maxJ (jnOfNat 0) (JNum.minJ (jnOfNat 100) q)) ∧
    jsRound (JNum.maxJ (jnOfNat 0) (JNum.minJ (jnOfNat 100) q)) ≤ 100 := by
  have core : ∀ v : JNum, 0 < v.den → 0 ≤ v.num → v.num ≤ 100 * (v.den : Int) →
      0 ≤ jsRound v ∧ jsRound v ≤ 100 := by
    intro v hden hlo hhi
    have hpos : (0 : Int) < 2 * (v.den : Int) := by omega
    unfold jsRound
    rw [Int.fdiv_eq_ediv _ (by omega)]
    constructor
    · exact Int.ediv_nonneg (by omega) (by omega)
    · have hlt : (2 * v.num + (v.den : Int)) / (2 * (v.den : Int)) < 101 :=
        (Int.ediv_lt_iff_lt_mul hpos).mpr (by omega)
      omega
  have h100 : (0 : JNum).den = 1 := rfl
  unfold JNum.maxJ JNum.minJ
  by_cases h1 : jnOfNat 100 ≤ q
  · rw [if_pos h1]
    rw [if_pos (by rw [JNum.le_def]; simp [jnOfNat])]
    exact core _ (by simp [jnOfNat]) (by simp [jnOfNat]) (by simp [jnOfNat])
  · rw [if_neg h1]
    rw [JNum.le_def] at h1
    simp only [jnOfNat] at h1
    by_cases h2 : jnOfNat 0 ≤ q
    · rw [if_pos h2]
      rw [JNum.le_def] at h2
      simp only [jnOfNat] at h2
      exact core q hq (by omega) (by omega)
    · rw [if_neg h2]
      exact core _ (by simp [jnOfNat]) (by simp [jnOfNat]) (by simp [jnOfNat])

theorem scoreCol_quality_bounds (cs : ColState) :
    0 ≤ (scoreCol cs).fr.quality_score ∧ (scoreCol cs).fr.quality_score ≤ 100 := by
  unfold scoreCol
  dsimp only
  apply jsRound_clamp_bounds
  apply JNum.sub_den_pos
  · apply JNum.mul_den_pos _ _ _ (jnOfNat_den_pos 100)
    split
    · apply mkJNum_den_pos
      rename_i hpos
      simp only [jnOfNat, JNum.div]
      have : (0 : Int) < (1 : Nat) * (cs.fr.total_values : Int) := by
        simp
        omega
      omega
    · exact jnOfNat_den_pos 0
  · apply JNum.mul_den_pos _ _ _ (jnOfNat_den_pos 50)
    split
    · apply mkJNum_den_pos
      rename_i hpos
      simp only [jnOfNat, JNum.div]
      have : (0 : Int) < (1 : Nat) * (cs.fr.total_values : Int) := by
        simp
        omega
      omega
    · exact jnOfNat_den_pos 0

theorem updateCol_length (cols : List (String × ColState)) (k : String)
    (f : ColState → ColState) : (updateCol cols k f).length = cols.length := by
  induction cols with
  | nil => rfl
  | cons e t ih =>
    unfold updateCol
    split
    · simp
    · simp [ih]

theorem bumpFr_cols_length (st : VState) (col : String) (f : FieldResult → FieldResult) :
    (bumpFr st col f).cols.length = st.cols.length := by
  simp [bumpFr, updateCol_length]

theorem updColSt_cols_length (st : VState) (col : String) (f : ColState → ColState) :
    (updColSt st col f).cols.length = st.cols.length := by
  simp [updColSt, updateCol_length]

theorem pushIssue_cols (st : VState) (i : Nat) (col : String) (v : JSValue)
    (msg : String) (sev : IssueSeverity) (ty : String) :
    (pushIssue st i col v msg sev ty).cols = st.cols := rfl

theorem bumpError_cols (st : VState) : (bumpError st).cols = st.cols := rfl

theorem bumpWarning_cols (st : VState) : (bumpWarning st).cols = st.cols := rfl

theorem checkValue_cols_length (p : Platform) (ty : SemanticType) (i : Nat) (col : String)
    (v : JSValue) (st : VState) :
    (checkValue p ty i col v st).cols.length = st.cols.length := by
  unfold checkValue
  dsimp only
  repeat' split
  all_goals
    simp only [bumpFr_cols_length, updColSt_cols_length, pushIssue_cols, bumpError_cols,
      bumpWarning_cols]

theorem validateRow_cols_length (p : Platform) (sm : SemanticMapping) (i : Nat) (row : Row)
    (st : VState) : (validateRow p sm i row st).cols.length = st.cols.length := by
  unfold validateRow
  induction sm generalizing st with
  | nil => rfl
  | cons e t ih =>
    simp only [List.foldl_cons]
    rw [ih]
    exact checkValue_cols_length ..

theorem foldl_cols_length {α : Type} (f : VState → α → VState)
    (hf : ∀ st a, (f st a).cols.length = st.cols.length) :
    ∀ (l : List α) (st : VState), (l.foldl f st).cols.length = st.cols.length := by
  intro l
  induction l with
  | nil => intro st; rfl
  | cons a t ih =>
    intro st
    simp only [List.foldl_cons]
    rw [ih, hf]

theorem outlierPass_cols_length (p : Platform) (data : List Row) (col : String)
    (st : VState) : (outlierPass p data col st).cols.length = st.cols.length := by
  unfold outlierPass
  dsimp only
  split
  · rfl
  · refine foldl_cols_length _ ?_ _ _
    intro st e
    simp only [bumpWarning_cols, pushIssue_cols, bumpFr_cols_length]

theorem validateData_results_length (p : Platform) (data : List Row)
    (sm : SemanticMapping) :
    (validateData p data sm).field_validation_results.length = sm.length := by
  unfold validateData
  dsimp only
  simp only [List.length_map]
  have h2 : ∀ (cols : List (String × SemanticType)) (st : VState),
      ((cols.foldl (fun st e => outlierPass p data e.1 st) st)).cols.length =
        st.cols.length := by
    intro cols
    induction cols with
    | nil => intro st; rfl
    | cons e t ih =>
      intro st
      simp only [List.foldl_cons]
      rw [ih, outlierPass_cols_length]
  have h1 : ∀ (rows : List (Nat × Row)) (st : VState),
      ((rows.foldl (fun st e => validateRow p sm e.1 e.2 st) st)).cols.length =
        st.cols.length := by
    intro rows
    induction rows with
    | nil => intro st; rfl
    | cons e t ih =>
      intro st
      simp only [List.foldl_cons]
      rw [ih, validateRow_cols_length]
  rw [h2, h1]
  simp [initVState]

/-- C3 (amended): every per-field quality score of `validateData` is an
integer in `[0, 100]` (the uncapped formula
`round(clamp(100·validRatio − 50·warningRatio))`; the warning penalty
is *not* capped at 50 points), and for a non-empty mapping the dataset
score is the rounded mean of the per-field scores. -/
theorem C3_quality_score_bounds (p : Platform) (data : List Row) (sm : SemanticMapping) :
    (∀ e ∈ (validateData p data sm).field_validation_results,
      0 ≤ e.2.quality_score ∧ e.2.quality_score ≤ 100) ∧
    (sm ≠ [] →
      (validateData p data sm).dataset_quality_score =
        jsRound ((jnOfInt (((validateData p data sm).field_validation_results.map
            (fun e => e.2.quality_score)).sum)).div
          (jnOfNat (validateData p data sm).field_validation_results.length))) := by
  constructor
  · intro e he
    unfold validateData at he
    dsimp only at he
    simp only [List.map_map, List.mem_map] at he
    obtain ⟨x, _, rfl⟩ := he
    exact scoreCol_quality_bounds x.2
  · intro hne
    have hlen := validateData_results_length p data sm
    have hsm : 0 < sm.length := by
      cases sm with
      | nil => exact absurd rfl hne
      | cons a t => simp
    rw [hlen]
    unfold validateData
    dsimp only
    rw [if_pos hsm]
    simp only [List.map_map]
    rfl

/-- Witness for C3 (amended) on a concrete one-column mapping with no
data rows (score 0, dataset score 0). -/
theorem C3_quality_score_bounds_witness :
    (∀ e ∈ (validateData defaultPlatform [] [("a", SemanticType.free_text)]).field_validation_results,
      0 ≤ e.2.quality_score ∧ e.2.quality_score ≤ 100) ∧
    (validateData defaultPlatform [] [("a", SemanticType.free_text)]).dataset_quality_score =
      jsRound ((jnOfInt (((validateData defaultPlatform [] [("a", SemanticType.free_text)]).field_validation_results.map
          (fun e => e.2.quality_score)).sum)).div
        (jnOfNat (validateData defaultPlatform [] [("a", SemanticType.free_text)]).field_validation_results.length)) :=
  ⟨(C3_quality_score_bounds defaultPlatform [] [("a", SemanticType.free_text)]).1,
   (C3_quality_score_bounds defaultPlatform [] [("a", SemanticType.free_text)]).2 (by decide)⟩

/-- C3 counterexample: on this column (ten negative numeric values, the
last also an IQR outlier) the field collects 11 warnings over 10
values, so the warning penalty is 55 points -- beyond the claimed
50-point cap: the computed score is 45, the capped formula of the
claim gives 50. -/
theorem C3_quality_score_counterexample :
    ∃ e ∈ (validateData pC3 dataC3 smC3).field_validation_results,
      e.2.quality_score = 45 ∧
      specCappedFieldScore e.2.valid_values e.2.total_values e.2.sevWarning = 50 ∧
      e.2.quality_score ≠ specCappedFieldScore e.2.valid_values e.2.total_values
        e.2.sevWarning := by
  decide

theorem isInfixB_single (c : Char) (l : List Char) : isInfixB [c] l = l.contains c := by
  induction l with
  | nil => rfl
  | cons d t ih =>
    unfold isInfixB
    rw [ih]
    show (c == d && List.isPrefixOf [] t || t.contains c) = (d :: t).contains c
    have hp : List.isPrefixOf ([] : List Char) t = true := by
      cases t <;> rfl
    rw [hp]
    simp only [List.contains_cons, Bool.and_true]

theorem mem_of_mem_dropWhile (p : Char → Bool) :
    ∀ (l : List Char) (a : Char), a ∈ l.dropWhile p → a ∈ l := by
  intro l
  induction l with
  | nil =>
    intro a h
    simp at h
  | cons d t ih =>
    intro a h
    rw [List.dropWhile_cons] at h
    split at h
    · exact List.mem_cons_of_mem d (ih a h)
    · exact h

theorem mem_jsTrimList (l : List Char) (a : Char) (h : a ∈ jsTrimList l) : a ∈ l := by
  unfold jsTrimList at h
  rw [List.mem_reverse] at h
  have h2 := mem_of_mem_dropWhile jsIsWs _ _ h
  rw [List.mem_reverse] at h2
  exact mem_of_mem_dropWhile jsIsWs _ _ h2

theorem cleanFieldValue_contact_nodigit (s : String) (hat : '@' ∉ s.toList)
    (hdig : ∀ c ∈ s.toList, jsIsDigit c = false) :
    cleanFieldValue defaultPlatform .contact_info (.str s) = (.null, []) := by
  unfold cleanFieldValue
  dsimp only
  have hinc : jsIncludes (jsTrim s) "@" = false := by
    unfold jsIncludes
    show isInfixB ['@'] (jsTrim s).toList = false
    rw [isInfixB_single]
    rw [List.contains_eq_any_beq]
    rw [List.any_eq_false]
    intro a ha
    have ha2 : a ∈ s.toList := mem_jsTrimList s.toList a ha
    cases hb : ('@' == a)
    · simp
    · rw [beq_iff_eq] at hb
      subst hb
      exact absurd ha2 hat
  rw [hinc]
  simp only [Bool.false_eq_true, if_false]
  have hfil : (jsTrim s).toList.filter jsIsDigit = [] := by
    rw [List.filter_eq_nil_iff]
    intro a ha
    have ha2 : a ∈ s.toList := mem_jsTrimList s.toList a ha
    simp [hdig a ha2]
  rw [hfil]
  rfl

/-- C5 (amended): under `contact_info`, `"  John@EXAMPLE.com "` cleans
to `"john@example.com"`, and any string containing neither `'@'` nor a
digit is nullified (its digit count 0 is outside [7, 15]) rather than
passed through unchanged. -/
theorem C5_contact_cleaning :
    ((cleanData defaultPlatform [[("c", JSValue.str "  John@EXAMPLE.com ")]] [("c", "c")]
        [("c", SemanticType.contact_info)]).cleaned_data =
      [[("c", JSValue.str "john@example.com")]]) ∧
    (∀ s : String, '@' ∉ s.toList → (∀ c ∈ s.toList, jsIsDigit c = false) →
      (cleanData defaultPlatform [[("c", JSValue.str s)]] [("c", "c")]
        [("c", SemanticType.contact_info)]).cleaned_data = [[("c", JSValue.null)]]) := by
  constructor
  · decide
  · intro s hat hdig
    have hcfv := cleanFieldValue_contact_nodigit s hat hdig
    have hstep : (([[("c", JSValue.str s)]] : List Row)).enum.foldl
        (cleanDataStep defaultPlatform [("c", "c")] [("c", SemanticType.contact_info)]
          ((([("c", SemanticType.contact_info)] : SemanticMapping).filter
            (fun e => e.2 == SemanticType.identifier)).map (fun e => e.1)))
        ⟨[], [], [], []⟩ = ⟨[], [], [[("c", JSValue.null)]], []⟩ := by
      have henum : (([[("c", JSValue.str s)]] : List Row)).enum =
          [(0, [("c", JSValue.str s)])] := rfl
      have hic : ((([("c", SemanticType.contact_info)] : SemanticMapping).filter
          (fun e => e.2 == SemanticType.identifier)).map (fun e => e.1)) =
          ([] : List String) := rfl
      rw [henum, hic]
      simp only [List.foldl_cons, List.foldl_nil]
      simp [cleanDataStep, cleanRow, hcfv, bumpFixes, rowSet, rowGet, smLookup]
    unfold cleanData
    dsimp only
    rw [hstep]
    decide

/-- Witness for C5 at the concrete input `"not-an-email"`. -/
theorem C5_contact_cleaning_witness :
    (cleanData defaultPlatform [[("c", JSValue.str "not-an-email")]] [("c", "c")]
      [("c", SemanticType.contact_info)]).cleaned_data = [[("c", JSValue.null)]] :=
  C5_contact_cleaning.2 "not-an-email" (by decide) (by decide)

theorem smLookup_cons (e : String × SemanticType) (t : SemanticMapping) (k2 : String) :
    smLookup (e :: t) k2 = if e.1 = k2 then some e.2 else smLookup t k2 := by
  by_cases h : e.1 = k2
  · rw [if_pos h]
    unfold smLookup
    rw [List.find?_cons_of_pos _ (by rw [beq_iff_eq]; exact h)]
    rfl
  · rw [if_neg h]
    unfold smLookup
    rw [List.find?_cons_of_neg _ (by simp [h])]

theorem smLookup_smUpsert (sm : SemanticMapping) (k : String) (v : SemanticType)
    (k2 : String) :
    smLookup (smUpsert sm k v) k2 = if k2 = k then some v else smLookup sm k2 := by
  induction sm with
  | nil =>
    show smLookup [(k, v)] k2 = _
    rw [smLookup_cons]
    by_cases h : k2 = k
    · rw [if_pos h, if_pos h.symm]
    · rw [if_neg h, if_neg (fun hh => h hh.symm)]
  | cons e t ih =>
    unfold smUpsert
    by_cases he : e.1 = k
    · rw [if_pos he, smLookup_cons, smLookup_cons]
      by_cases h : k2 = k
      · rw [if_pos h.symm, if_pos h]
      · rw [if_neg (fun hh => h hh.symm), if_neg h, if_neg (fun hh => h (hh.symm.trans he))]
    · rw [if_neg he, smLookup_cons, smLookup_cons, ih]
      by_cases h2 : e.1 = k2
      · rw [if_pos h2, if_pos h2, if_neg (fun hh => he (h2.trans hh))]
      · rw [if_neg h2, if_neg h2]

theorem smUpsert_fold_lookup_skip (p : Platform) (data : List Row) :
    ∀ (cols : List String) (acc : SemanticMapping) (col : String), col ∉ cols →
      smLookup (cols.foldl (fun acc c => smUpsert acc c (inferColumnType p data c)) acc)
        col = smLookup acc col := by
  intro cols
  induction cols with
  | nil =>
    intro acc col _
    rfl
  | cons c t ih =>
    intro acc col hmem
    simp only [List.foldl_cons]
    rw [ih _ _ (fun hh => hmem (List.mem_cons_of_mem c hh))]
    rw [smLookup_smUpsert]
    rw [if_neg (fun hh => hmem (List.mem_cons.mpr (Or.inl hh)))]

theorem smUpsert_fold_lookup (p : Platform) (data : List Row) :
    ∀ (cols : List String) (acc : SemanticMapping) (col : String), cols.Nodup →
      col ∈ cols →
      smLookup (cols.foldl (fun acc c => smUpsert acc c (inferColumnType p data c)) acc)
        col = some (inferColumnType p data col) := by
  intro cols
  induction cols with
  | nil =>
    intro acc col _ hmem
    simp at hmem
  | cons c t ih =>
    intro acc col hnd hmem
    simp only [List.foldl_cons]
    rcases List.mem_cons.mp hmem with hc | hc
    · subst hc
      rw [smUpsert_fold_lookup_skip p data t _ col (List.Nodup.not_mem hnd)]
      rw [smLookup_smUpsert, if_pos rfl]
    · exact ih _ col (List.Nodup.of_cons hnd) hc

theorem inferColumnType_contact_iff (p : Platform) (data : List Row) (col : String) :
    inferColumnType p data col = SemanticType.contact_info ↔
      (jn 1 2 < ratioOf isEmailPred (colVals data col) ∨
       jn 1 2 < ratioOf (isPhonePred p) (colVals data col) ∨
       (tokensOf col).any (fun t => contactTokens.contains t) = true) := by
  unfold inferColumnType
  dsimp only
  split_ifs with h1 h2 h3 h4 h5 h6 h7 h8 h9 <;> simp_all

/-- C7 (amended): in `inferSemanticMapping` the contact rule has first
precedence — for every analysed column (column names assumed distinct),
the inferred mapping assigns `contact_info` to the column exactly when
its email-shape ratio exceeds 1/2, or its phone-like ratio exceeds 1/2,
or its tokenized name matches the CONTACT token set (`contactTokens`,
not the name-token set as the original claim stated); no later rule can
override this assignment. -/
theorem C7_contact_rule (p : Platform) (analysis : AnalysisResult) (data : List Row)
    (col : String)
    (hnd : (analysis.columns.map (fun c => c.name)).Nodup)
    (hmem : col ∈ analysis.columns.map (fun c => c.name)) :
    smLookup (inferSemanticMapping p analysis data) col =
        some SemanticType.contact_info ↔
      (jn 1 2 < ratioOf isEmailPred (colVals data col) ∨
       jn 1 2 < ratioOf (isPhonePred p) (colVals data col) ∨
       (tokensOf col).any (fun t => contactTokens.contains t) = true) := by
  rw [inferSemanticMapping,
    smUpsert_fold_lookup p data _ [] col hnd hmem, Option.some_inj]
  exact inferColumnType_contact_iff p data col

/-- Witness for C7: a lone column named `"email"` with no data rows is
assigned `contact_info` purely by its name token. -/
theorem C7_contact_rule_witness :
    smLookup (inferSemanticMapping defaultPlatform ⟨[⟨"email"⟩]⟩ []) "email" =
      some SemanticType.contact_info :=
  (C7_contact_rule defaultPlatform ⟨[⟨"email"⟩]⟩ [] "email" (by decide) (by decide)).mpr
    (by decide)

theorem accAppend_assoc (a b c : BatchAcc) :
    accAppend (accAppend a b) c = accAppend a (accAppend b c) := by
  simp [accAppend, List.append_assoc, Nat.add_assoc]

theorem accAppend_empty_left (a : BatchAcc) : accAppend emptyBatchAcc a = a := by
  obtain ⟨s, fl, su, fa, w⟩ := a
  simp [accAppend, emptyBatchAcc]

theorem accAppend_empty_right (a : BatchAcc) : accAppend a emptyBatchAcc = a := by
  obtain ⟨s, fl, su, fa, w⟩ := a
  simp [accAppend, emptyBatchAcc]

theorem processFileStep_counts (v : UnifiedRecord → Except String ValidationResult)
    (f : String) (st : BatchAcc × Bool) (r : UnifiedRecord)
    (h1 : st.1.success = st.1.successes.length)
    (h2 : st.1.failed = st.1.failures.length) :
    (processFileStep v f st r).1.success = (processFileStep v f st r).1.successes.length ∧
    (processFileStep v f st r).1.failed = (processFileStep v f st r).1.failures.length ∧
    (processFileStep v f st r).1.success + (processFileStep v f st r).1.failed
      = st.1.success + st.1.failed + 1 := by
  obtain ⟨acc, aborted⟩ := st
  unfold processFileStep
  dsimp only at h1 h2 ⊢
  split_ifs <;> simp_all <;> omega

theorem processFile_fold_inv (v : UnifiedRecord → Except String ValidationResult)
    (f : String) (rs : List UnifiedRecord) :
    ∀ (st : BatchAcc × Bool),
      st.1.success = st.1.successes.length →
      st.1.failed = st.1.failures.length →
      (rs.foldl (processFileStep v f) st).1.success
          = (rs.foldl (processFileStep v f) st).1.successes.length ∧
      (rs.foldl (processFileStep v f) st).1.failed
          = (rs.foldl (processFileStep v f) st).1.failures.length ∧
      (rs.foldl (processFileStep v f) st).1.success
          + (rs.foldl (processFileStep v f) st).1.failed
        = st.1.success + st.1.failed + rs.length := by
  induction rs with
  | nil =>
    intro st h1 h2
    exact ⟨h1, h2, rfl⟩
  | cons r t ih =>
    intro st h1 h2
    simp only [List.foldl_cons, List.length_cons]
    have hs := processFileStep_counts v f st r h1 h2
    have ht := ih (processFileStep v f st r) hs.1 hs.2.1
    exact ⟨ht.1, ht.2.1, by omega⟩

theorem groupsFold_inv (v : UnifiedRecord → Except String ValidationResult)
    (gs : List (String × List UnifiedRecord)) :
    ∀ (acc : BatchAcc),
      acc.success = acc.successes.length →
      acc.failed = acc.failures.length →
      (gs.foldl (fun a g => processFile v g.1 g.2 a) acc).success
          = (gs.foldl (fun a g => processFile v g.1 g.2 a) acc).successes.length ∧
      (gs.foldl (fun a g => processFile v g.1 g.2 a) acc).failed
          = (gs.foldl (fun a g => processFile v g.1 g.2 a) acc).failures.length ∧
      (gs.foldl (fun a g => processFile v g.1 g.2 a) acc).success
          + (gs.foldl (fun a g => processFile v g.1 g.2 a) acc).failed
        = acc.success + acc.failed + (gs.map (fun g => g.2.length)).sum := by
  induction gs with
  | nil =>
    intro acc h1 h2
    exact ⟨h1, h2, by simp⟩
  | cons g t ih =>
    intro acc h1 h2
    simp only [List.foldl_cons, List.map_cons, List.sum_cons]
    have hg := processFile_fold_inv v g.1 g.2 (acc, false) h1 h2
    have ht := ih (processFile v g.1 g.2 acc) hg.1 hg.2.1
    refine ⟨ht.1, ht.2.1, ?_⟩
    have hpf := hg.2.2
    have hts := ht.2.2
    dsimp only at hpf
    unfold processFile at hts ⊢
    omega

theorem insertGroup_size (k : String) (r : UnifiedRecord) :
    ∀ gs : List (String × List UnifiedRecord),
      ((insertGroup k r gs).map (fun g => g.2.length)).sum
        = (gs.map (fun g => g.2.length)).sum + 1 := by
  intro gs
  induction gs with
  | nil => simp [insertGroup]
  | cons e t ih =>
    unfold insertGroup
    split_ifs with h
    · simp [List.sum_cons]
      omega
    · simp only [List.map_cons, List.sum_cons, ih]
      omega

theorem groupByFile_size (records : List UnifiedRecord) :
    ∀ gs : List (String × List UnifiedRecord),
      ((records.foldl (fun acc r => insertGroup (fileKey r) r acc) gs).map
          (fun g => g.2.length)).sum
        = (gs.map (fun g => g.2.length)).sum + records.length := by
  induction records with
  | nil => intro gs; simp
  | cons r t ih =>
    intro gs
    simp only [List.foldl_cons, List.length_cons]
    rw [ih (insertGroup (fileKey r) r gs), insertGroup_size]
    omega

/-- C10: the accounting invariant of `processBatch` -- the summary total
is the input size, success and failed equal the lengths of the success
and failure lists, and every record is counted exactly once. -/
theorem C10_accounting_invariant (validate : UnifiedRecord → Except String ValidationResult)
    (records : List UnifiedRecord) :
    (processBatch validate records).summary.total = records.length ∧
    (processBatch validate records).summary.success
      = (processBatch validate records).successful_records.length ∧
    (processBatch validate records).summary.failed
      = (processBatch validate records).failed_records.length ∧
    (processBatch validate records).summary.success
        + (processBatch validate records).summary.failed
      = (processBatch validate records).summary.total := by
  unfold processBatch
  dsimp only
  have hg := groupsFold_inv validate (groupByFile records) emptyBatchAcc rfl rfl
  refine ⟨rfl, hg.1, hg.2.1, ?_⟩
  have hsz : ((groupByFile records).map (fun g => g.2.length)).sum = records.length := by
    have h := groupByFile_size records []
    simpa [groupByFile] using h
  have h3 := hg.2.2
  have e1 : emptyBatchAcc.success = 0 := rfl
  have e2 : emptyBatchAcc.failed = 0 := rfl
  omega

theorem processFileStep_acc (v : UnifiedRecord → Except String ValidationResult)
    (f : String) (acc : BatchAcc) (b : Bool) (r : UnifiedRecord) :
    processFileStep v f (acc, b) r =
      (accAppend acc (processFileStep v f (emptyBatchAcc, b) r).1,
       (processFileStep v f (emptyBatchAcc, b) r).2) := by
  obtain ⟨s, fl, su, fa, w⟩ := acc
  unfold processFileStep accAppend emptyBatchAcc
  dsimp only
  split_ifs <;> simp

theorem foldl_processFileStep_acc (v : UnifiedRecord → Except String ValidationResult)
    (f : String) (rs : List UnifiedRecord) :
    ∀ (acc : BatchAcc) (b : Bool),
      rs.foldl (processFileStep v f) (acc, b) =
        (accAppend acc (rs.foldl (processFileStep v f) (emptyBatchAcc, b)).1,
         (rs.foldl (processFileStep v f) (emptyBatchAcc, b)).2) := by
  induction rs with
  | nil =>
    intro acc b
    simp [accAppend_empty_right]
  | cons r t ih =>
    intro acc b
    simp only [List.foldl_cons]
    rw [processFileStep_acc v f acc b r]
    rw [ih (accAppend acc (processFileStep v f (emptyBatchAcc, b) r).1)
        (processFileStep v f (emptyBatchAcc, b) r).2]
    rw [ih (processFileStep v f (emptyBatchAcc, b) r).1
        (processFileStep v f (emptyBatchAcc, b) r).2]
    rw [accAppend_assoc]

theorem processFile_acc (v : UnifiedRecord → Except String ValidationResult)
    (f : String) (rs : List UnifiedRecord) (acc : BatchAcc) :
    processFile v f rs acc = accAppend acc (processFile v f rs emptyBatchAcc) := by
  unfold processFile
  rw [foldl_processFileStep_acc v f rs acc false]

theorem gsfold_acc (v : UnifiedRecord → Except String ValidationResult)
    (gs : List (String × List UnifiedRecord)) :
    ∀ acc : BatchAcc,
      gs.foldl (fun a g => processFile v g.1 g.2 a) acc =
        accAppend acc (gs.foldl (fun a g => processFile v g.1 g.2 a) emptyBatchAcc) := by
  induction gs with
  | nil =>
    intro acc
    simp [accAppend_empty_right]
  | cons g t ih =>
    intro acc
    simp only [List.foldl_cons]
    rw [processFile_acc v g.1 g.2 acc, ih (accAppend acc (processFile v g.1 g.2 emptyBatchAcc)),
      processFile_acc v g.1 g.2 emptyBatchAcc, accAppend_empty_left,
      ih (processFile v g.1 g.2 emptyBatchAcc), accAppend_assoc]

theorem foldl_aborted (v : UnifiedRecord → Except String ValidationResult)
    (f : String) (rs : List UnifiedRecord) :
    ∀ acc : BatchAcc,
      rs.foldl (processFileStep v f) (acc, true) =
        ({ acc with
            failures := acc.failures ++ rs.map (fun x => ⟨x.id, f, [fileAbortedError]⟩)
            failed := acc.failed + rs.length }, true) := by
  induction rs with
  | nil =>
    intro acc
    obtain ⟨s, fl, su, fa, w⟩ := acc
    simp
  | cons r t ih =>
    intro acc
    simp only [List.foldl_cons]
    have hstep : processFileStep v f (acc, true) r =
        ({ acc with
            failures := acc.failures ++ [⟨r.id, f, [fileAbortedError]⟩]
            failed := acc.failed + 1 }, true) := rfl
    rw [hstep, ih]
    obtain ⟨s, fl, su, fa, w⟩ := acc
    simp [List.append_assoc]
    omega

theorem foldl_nocrit (v : UnifiedRecord → Except String ValidationResult) (f : String) :
    ∀ (pre : List UnifiedRecord) (acc : BatchAcc),
      (∀ x ∈ pre, resultHasCritical (processRecordSafely v x) = false) →
      (pre.foldl (processFileStep v f) (acc, false)).2 = false := by
  intro pre
  induction pre with
  | nil =>
    intro acc _
    rfl
  | cons r t ih =>
    intro acc h
    simp only [List.foldl_cons]
    have hr := h r (List.mem_cons_self r t)
    have hstep : (processFileStep v f (acc, false) r).2 = false := by
      unfold processFileStep
      dsimp only
      rw [if_neg (by simp)]
      rw [if_neg (by simp [hr])]
      split_ifs <;> rfl
    have hmk : processFileStep v f (acc, false) r =
        ((processFileStep v f (acc, false) r).1, false) := by
      rw [Prod.ext_iff]
      exact ⟨rfl, hstep⟩
    rw [hmk]
    exact ih (processFileStep v f (acc, false) r).1
      (fun x hx => h x (List.mem_cons_of_mem r hx))

theorem processFile_abort (v : UnifiedRecord → Except String ValidationResult)
    (f : String) (pre post : List UnifiedRecord) (r : UnifiedRecord) (acc : BatchAcc)
    (hpre : ∀ x ∈ pre, resultHasCritical (processRecordSafely v x) = false)
    (hr : resultHasCritical (processRecordSafely v r) = true) :
    processFile v f (pre ++ r :: post) acc =
      { processFile v f pre acc with
          failures := (processFile v f pre acc).failures
            ++ [⟨r.id, f, (processRecordSafely v r).errors.getD []⟩]
            ++ post.map (fun x => ⟨x.id, f, [fileAbortedError]⟩)
          failed := (processFile v f pre acc).failed + 1 + post.length } := by
  unfold processFile
  rw [List.foldl_append]
  have hflag := foldl_nocrit v f pre acc hpre
  have hmk : pre.foldl (processFileStep v f) (acc, false) =
      ((pre.foldl (processFileStep v f) (acc, false)).1, false) := by
    rw [Prod.ext_iff]
    exact ⟨rfl, hflag⟩
  rw [hmk]
  simp only [List.foldl_cons]
  have hstep : processFileStep v f ((pre.foldl (processFileStep v f) (acc, false)).1, false) r =
      ({ (pre.foldl (processFileStep v f) (acc, false)).1 with
          failures := (pre.foldl (processFileStep v f) (acc, false)).1.failures
            ++ [⟨r.id, f, (processRecordSafely v r).errors.getD []⟩]
          failed := (pre.foldl (processFileStep v f) (acc, false)).1.failed + 1 }, true) := by
    unfold processFileStep
    dsimp only
    rw [if_neg (by simp), if_pos hr]
  rw [hstep, foldl_aborted]

/-- C2: in `processBatch`, once a record of a file fails validation
with a CRITICAL error, that record is marked failed with its own
errors and every later record of the same file is marked failed with
the synthetic FILE_ABORTED error -- their entries do not depend on the
validator at all -- while every other file group contributes exactly
what processing it alone from an empty accumulator produces. -/
theorem C2_critical_aborts_file (v : UnifiedRecord → Except String ValidationResult)
    (records pre post : List UnifiedRecord) (r : UnifiedRecord) (f : String)
    (gs1 gs2 : List (String × List UnifiedRecord))
    (hg : groupByFile records = gs1 ++ (f, pre ++ r :: post) :: gs2)
    (hpre : ∀ x ∈ pre, resultHasCritical (processRecordSafely v x) = false)
    (hr : resultHasCritical (processRecordSafely v r) = true) :
    (processBatch v records).failed_records =
      (gs1.foldl (fun a g => processFile v g.1 g.2 a) emptyBatchAcc).failures
      ++ ((processFile v f pre emptyBatchAcc).failures
          ++ [⟨r.id, f, (processRecordSafely v r).errors.getD []⟩]
          ++ post.map (fun x => ⟨x.id, f, [fileAbortedError]⟩))
      ++ (gs2.foldl (fun a g => processFile v g.1 g.2 a) emptyBatchAcc).failures
    ∧ (processBatch v records).successful_records =
      (gs1.foldl (fun a g => processFile v g.1 g.2 a) emptyBatchAcc).successes
      ++ (processFile v f pre emptyBatchAcc).successes
      ++ (gs2.foldl (fun a g => processFile v g.1 g.2 a) emptyBatchAcc).successes := by
  unfold processBatch
  dsimp only
  rw [hg, List.foldl_append, List.foldl_cons]
  rw [gsfold_acc v gs2]
  rw [processFile_acc v f (pre ++ r :: post)
    (gs1.foldl (fun a g => processFile v g.1 g.2 a) emptyBatchAcc)]
  rw [processFile_abort v f pre post r emptyBatchAcc hpre hr]
  simp only [accAppend, List.append_assoc]
  exact ⟨trivial, trivial⟩

/-- Witness for C2 on the concrete three-record file `"f.json"`:
record 1 validates cleanly and succeeds, record 2 has empty content
(CRITICAL) and fails, record 3 fails via FILE_ABORTED. -/
theorem C2_critical_aborts_file_witness :
    (processBatch validateC2 [recC2a, recC2b, recC2c]).successful_records = [recC2a] ∧
    (processBatch validateC2 [recC2a, recC2b, recC2c]).failed_records =
      [⟨recC2b.id, "f.json",
         (processRecordSafely validateC2 recC2b).errors.getD []⟩,
       ⟨recC2c.id, "f.json", [fileAbortedError]⟩] := by
  have h := C2_critical_aborts_file validateC2 [recC2a, recC2b, recC2c]
    [recC2a] [recC2c] recC2b "f.json" [] []
    (by decide) (by decide) (by decide)
  refine ⟨?_, ?_⟩
  · rw [h.2]
    decide
  · rw [h.1]
    decide

theorem cuStep_structured (st : CUState) (record : UnifiedRecord)
    (h : isStructuredSource record.source_type = true) :
    cuStep st record =
      if st.seen.contains
          (signatureOf record.source_type record.structured_content record.group_id) then
        { st with
            fixes := bumpFix st.fixes "duplicates_removed"
            dropped := st.dropped + 1 }
      else
        { seen := st.seen ++
            [signatureOf record.source_type record.structured_content record.group_id]
          out := st.out ++ [record]
          fixes := st.fixes
          dropped := st.dropped } := by
  unfold cuStep
  rw [if_pos h]
  dsimp only
  split_ifs <;> rfl

theorem cuFold_structured_mem (records : List UnifiedRecord) :
    ∀ (st : CUState) (r : UnifiedRecord), r ∈ (records.foldl cuStep st).out →
      isStructuredSource r.source_type = true → r ∈ st.out ∨ r ∈ records := by
  induction records with
  | nil =>
    intro st r hr _
    exact Or.inl hr
  | cons a t ih =>
    intro st r hr hs
    simp only [List.foldl_cons] at hr
    rcases ih (cuStep st a) r hr hs with h | h
    · by_cases ha : isStructuredSource a.source_type = true
      · rw [cuStep_structured st a ha] at h
        split at h
        · exact Or.inl h
        · rcases List.mem_append.mp h with h2 | h2
          · exact Or.inl h2
          · exact Or.inr (List.mem_cons.mpr (Or.inl (List.mem_singleton.mp h2)))
      · have ha2 : isStructuredSource a.source_type = false := by
          simpa using ha
        unfold cuStep at h
        simp only [ha2, Bool.false_eq_true, if_false] at h
        split at h
        · exact Or.inl h
        · rcases List.mem_append.mp h with h2 | h2
          · exact Or.inl h2
          · rw [List.mem_singleton.mp h2] at hs
            exact absurd (by simpa using hs) ha
    · exact Or.inr (List.mem_cons_of_mem a h)

/-- C8 (amended): the text-cleaning phase of `cleanUnifiedData` applies
no transformation to structurally-typed records (api, csv, log): the
per-record step either drops a duplicate -- incrementing only the
`duplicates_removed` counter -- or appends the record verbatim with no
counter change, and consequently every structurally-typed record of the
phase-1 output is an input record unchanged. (The original claim's
"appears in the output" fails: the phase-2 validation gate can still
drop such records, see the counterexample.) -/
theorem C8_structured_frame :
    (∀ (st : CUState) (record : UnifiedRecord),
      isStructuredSource record.source_type = true →
      cuStep st record =
        if st.seen.contains
            (signatureOf record.source_type record.structured_content record.group_id) then
          { st with
              fixes := bumpFix st.fixes "duplicates_removed"
              dropped := st.dropped + 1 }
        else
          { seen := st.seen ++
              [signatureOf record.source_type record.structured_content record.group_id]
            out := st.out ++ [record]
            fixes := st.fixes
            dropped := st.dropped }) ∧
    (∀ (records : List UnifiedRecord) (r : UnifiedRecord),
      r ∈ (cuPhase1 records).out → isStructuredSource r.source_type = true →
      r ∈ records) := by
  constructor
  · exact cuStep_structured
  · intro records r hr hs
    rcases cuFold_structured_mem records ⟨[], [], [], 0⟩ r hr hs with h | h
    · exact absurd h (List.not_mem_nil r)
    · exact h

/-- Witness for C8: the concrete csv record passes the cleaning step
verbatim, bumping no fix counter. -/
theorem C8_structured_frame_witness :
    cuStep ⟨[], [], [], 0⟩ recC8csv =
      { seen := [signatureOf recC8csv.source_type recC8csv.structured_content
          recC8csv.group_id]
        out := [recC8csv]
        fixes := []
        dropped := 0 } := by
  have h := C8_structured_frame.1 ⟨[], [], [], 0⟩ recC8csv (by decide)
  rw [h]
  decide

theorem mem_insertAscNat (x y : Nat) (l : List Nat) :
    y ∈ insertAscNat x l ↔ y = x ∨ y ∈ l := by
  induction l with
  | nil => simp [insertAscNat]
  | cons a t ih =>
    unfold insertAscNat
    split_ifs with h
    · simp [List.mem_cons]
    · simp only [List.mem_cons, ih]
      tauto

theorem sorted_insertAscNat (x : Nat) (l : List Nat) (h : l.Sorted (· ≤ ·)) :
    (insertAscNat x l).Sorted (· ≤ ·) := by
  induction l with
  | nil => simp [insertAscNat]
  | cons a t ih =>
    unfold insertAscNat
    split_ifs with hle
    · rw [List.sorted_cons]
      refine ⟨?_, h⟩
      intro b hb
      rcases List.mem_cons.mp hb with rfl | hb
      · exact hle
      · exact le_trans hle (List.rel_of_sorted_cons h b hb)
    · rw [List.sorted_cons] at h ⊢
      refine ⟨?_, ih h.2⟩
      intro b hb
      rcases (mem_insertAscNat x b t).mp hb with rfl | hb
      · omega
      · exact h.1 b hb

theorem mem_sortAscNat_aux (l : List Nat) (x : Nat) :
    x ∈ l.foldr insertAscNat [] ↔ x ∈ l := by
  induction l with
  | nil => simp
  | cons a t ih =>
    simp only [List.foldr_cons, mem_insertAscNat, List.mem_cons, ih]

theorem mem_sortAscNat (l : List Nat) (x : Nat) : x ∈ sortAscNat l ↔ x ∈ l :=
  mem_sortAscNat_aux l x

theorem sorted_sortAscNat (l : List Nat) : (sortAscNat l).Sorted (· ≤ ·) := by
  unfold sortAscNat
  induction l with
  | nil => simp
  | cons a t ih =>
    simp only [List.foldr_cons]
    exact sorted_insertAscNat a (t.foldr insertAscNat []) ih

theorem mem_foldl_dedup :
    ∀ (l acc : List Nat) (x : Nat),
      x ∈ l.foldl (fun acc idx => if acc.contains idx then acc else acc ++ [idx]) acc ↔
        x ∈ acc ∨ x ∈ l := by
  intro l
  induction l with
  | nil =>
    intro acc x
    simp
  | cons y t ih =>
    intro acc x
    simp only [List.foldl_cons]
    by_cases h : acc.contains y = true
    · have hy : y ∈ acc := by simpa using h
      rw [if_pos h, ih]
      constructor
      · rintro (h1 | h1)
        · exact Or.inl h1
        · exact Or.inr (List.mem_cons_of_mem y h1)
      · rintro (h1 | h1)
        · exact Or.inl h1
        · rcases List.mem_cons.mp h1 with rfl | h1
          · exact Or.inl hy
          · exact Or.inr h1
    · rw [if_neg h, ih]
      simp only [List.mem_append, List.mem_singleton, List.mem_cons]
      tauto

/-- C4 (amended): after per-field cleaning, `cleanData` re-validates the
cleaned rows under the target (post-mapping) column names and drops
from `cleaned_data` exactly the rows whose POSITION IN THE CLEANED
ARRAY carries a CRITICAL issue; `dropped_rows` is the sorted
de-duplicated union of the identifier-stage drops (original input
indices) with those critical POSITIONS -- not with original input
indices, as the original claim stated (see the counterexample). -/
theorem C4_critical_rows_dropped (p : Platform) (data : List Row)
    (mapping : List (String × String)) (sm : SemanticMapping)
    (st : CleanDataState) (critRows : List Nat)
    (hst : st = data.enum.foldl
      (cleanDataStep p mapping sm
        ((sm.filter (fun e => e.2 == SemanticType.identifier)).map (fun e => e.1)))
      ⟨[], [], [], []⟩)
    (hcrit : critRows = collectSevRows
      (validateData p st.cleaned (buildTargetSM mapping sm)).issues .critical) :
    (cleanData p data mapping sm).cleaned_data
        = (st.cleaned.enum.filter (fun e => !critRows.contains e.1)).map (fun e => e.2) ∧
    (∀ i, i ∈ (cleanData p data mapping sm).dropped_rows ↔
      i ∈ st.dropped ∨ i ∈ critRows) ∧
    (cleanData p data mapping sm).dropped_rows.Sorted (· ≤ ·) := by
  subst hst hcrit
  unfold cleanData
  dsimp only
  refine ⟨rfl, ?_, sorted_sortAscNat _⟩
  intro i
  rw [mem_sortAscNat, mem_foldl_dedup]

/-- Witness for C4 at the concrete two-row data set of the
counterexample. -/
theorem C4_critical_rows_dropped_witness :
    (cleanData defaultPlatform dataC4 mapC4 smC4).dropped_rows.Sorted (· ≤ ·) :=
  (C4_critical_rows_dropped defaultPlatform dataC4 mapC4 smC4 _ _ rfl rfl).2.2


theorem ctsImg1 : cleanTextSteps SourceType.image "1 mean x" =
    ("I mean x", ["ocr_errors_fixed"]) := by
  simp +decide [cleanTextSteps, jsWordReplace, replaceWordAllAux, matchWordAt, prefixMatchCI,
    charEqCI, boundaryDiff, isWordOpt, ocrFixes, abbreviationPairs,
    sentenceCaseStr, sentenceCaseList, sentenceCaseAux, shoutFix,
    jsTrim, jsTrimList, jsToLower, jsToUpper]

theorem ctsImg2 : cleanTextSteps SourceType.image "X" = ("X", []) := by
  simp +decide [cleanTextSteps, jsWordReplace, replaceWordAllAux, matchWordAt, prefixMatchCI,
    charEqCI, boundaryDiff, isWordOpt, ocrFixes, abbreviationPairs,
    sentenceCaseStr, sentenceCaseList, sentenceCaseAux, shoutFix,
    jsTrim, jsTrimList, jsToLower, jsToUpper]

theorem ctsImg3 : cleanTextSteps SourceType.image "I mean x" =
    ("X", ["filler_words_removed"]) := by
  simp +decide [cleanTextSteps, fillersReplace, fillersReplaceAux, matchFillerAt, fillerAlts,
    jsWordReplace, replaceWordAllAux, matchWordAt, prefixMatchCI,
    charEqCI, boundaryDiff, isWordOpt, ocrFixes, abbreviationPairs,
    sentenceCaseStr, sentenceCaseList, sentenceCaseAux, shoutFix,
    jsTrim, jsTrimList, jsToLower, jsToUpper]

theorem cuPhase1_img_run1 : cuPhase1 [recC6img, recC6img2] =
    ⟨["image:i mean x:g", "image:x:g"],
     [{ recC6img with structured_content := "I mean x" }, recC6img2],
     [("ocr_errors_fixed", 1)], 0⟩ := by
  simp +decide [cuPhase1, cuStep, ctsImg1, ctsImg2, recC6img, recC6img2,
    isStructuredSource, signatureOf, sourceTypeStr, bumpFixes, bumpFix,
    jsTrim, jsTrimList, jsToLower]

theorem cuPhase1_img_run2 :
    cuPhase1 [{ recC6img with structured_content := "I mean x" }, recC6img2] =
    ⟨["image:x:g"],
     [{ recC6img with structured_content := "X" }],
     [("filler_words_removed", 1), ("duplicates_removed", 1)], 1⟩ := by
  simp +decide [cuPhase1, cuStep, ctsImg3, ctsImg2, recC6img, recC6img2,
    isStructuredSource, signatureOf, sourceTypeStr, bumpFixes, bumpFix,
    jsTrim, jsTrimList, jsToLower]

theorem cleanRun1_img :
    (cleanUnifiedData defaultPlatform [recC6img, recC6img2]).cleanedRecords =
      [{ recC6img with structured_content := "I mean x" }, recC6img2] := by
  unfold cleanUnifiedData
  rw [cuPhase1_img_run1]
  decide

/-- C6 (amended): re-running the cleaner on its own already-cleaned
output is not change-free. Fix counters can increment again
(`shouting_fixed` re-fires every run on content with no cased
letters), and the second run can even change record contents and drop
records: a first-run OCR fix can create a filler phrase
(`"1 mean x"` to `"I mean x"`) that the second run then removes
(content becomes `"X"`), and the changed contents can collide in
deduplication, dropping a record. -/
theorem C6_second_run_changes :
    (cleanUnifiedData defaultPlatform
        (cleanUnifiedData defaultPlatform [recC6]).cleanedRecords).cleanedRecords =
      (cleanUnifiedData defaultPlatform [recC6]).cleanedRecords ∧
    fixCount (cleanUnifiedData defaultPlatform
        (cleanUnifiedData defaultPlatform [recC6]).cleanedRecords).stats.fixes_applied
      "shouting_fixed" = 1 ∧
    (cleanUnifiedData defaultPlatform [recC6img, recC6img2]).cleanedRecords.map
        (fun r => r.structured_content) = ["I mean x", "X"] ∧
    (cleanUnifiedData defaultPlatform
        (cleanUnifiedData defaultPlatform
          [recC6img, recC6img2]).cleanedRecords).cleanedRecords.map
        (fun r => r.structured_content) = ["X"] ∧
    fixCount (cleanUnifiedData defaultPlatform
        (cleanUnifiedData defaultPlatform
          [recC6img, recC6img2]).cleanedRecords).stats.fixes_applied
      "filler_words_removed" = 1 ∧
    (cleanUnifiedData defaultPlatform
        (cleanUnifiedData defaultPlatform
          [recC6img, recC6img2]).cleanedRecords).stats.dropped_records = 1 := by
  refine ⟨by decide, by decide, ?_, ?_, ?_, ?_⟩
  · rw [cleanRun1_img]
    decide
  · rw [cleanRun1_img]
    unfold cleanUnifiedData
    rw [cuPhase1_img_run2]
    decide
  · rw [cleanRun1_img]
    unfold cleanUnifiedData
    rw [cuPhase1_img_run2]
    decide
  · rw [cleanRun1_img]
    unfold cleanUnifiedData
    rw [cuPhase1_img_run2]
    decide
